import Mathlib

/-!
Keycloak bridge: ingestion pipeline and audit trail.

A shallow embedding of the event ingestion handler of the keycloak bridge
(`pkg/event/http.go`), of the sink wiring of `cmd/keycloakb/keycloak_bridge.go`
and of the management operations whose audit trail is described by section
4.5 of the specification, with the properties proved about them.

Go packages are mirrored by namespaces; Go strings are Lean strings, byte
slices are lists of naturals below 256, and a Go function returning
`(value, error)` returns an `Except`.
-/

namespace KeycloakBridge

deriving instance DecidableEq for Except

/-! ## Errors -/

/-- The error values that travel through the HTTP handlers.
`ErrInvalidArgument` is the type declared in `pkg/event/http.go`;
`CorruptInputError` is the error of `encoding/base64`; `jsonError` stands for
the errors of `encoding/json`; `other` is any other error value;
`wrap cause message` is `errors.Wrap(cause, message)` of `github.com/pkg/errors`;
`kcHTTPError` is `kc_client.HTTPError{HTTPStatus, Message}` of the keycloak
client; `ForbiddenError` is `security.ForbiddenError`; `HTTPError` is the type
declared in `pkg/management/http.go`; `ErrLimited` is the value
`ratelimit.ErrLimited` of go-kit. Status codes are Go `int` values. -/
inductive GoError where
  | ErrInvalidArgument (InvalidParam : String)
  | CorruptInputError (offset : Nat)
  | jsonError (msg : String)
  | other (msg : String)
  | wrap (cause : GoError) (message : String)
  | kcHTTPError (HTTPStatus : Int) (Message : String)
  | ForbiddenError
  | HTTPError (Status : Int) (Message : String)
  | ErrLimited
  deriving DecidableEq, Repr

namespace GoError

/-- `errors.Cause`: unwraps until an error that was not produced by `errors.Wrap`. -/
def Cause : GoError → GoError
  | wrap cause _ => Cause cause
  | e => e

/-- The `Error()` method. For `ErrInvalidArgument` it is the method of
`pkg/event/http.go`: `fmt.Sprintf("invalidArgument.%s", e.InvalidParam)`; for
`HTTPError` the method of `pkg/management/http.go`:
`fmt.Sprintf("%d %s", e.Status, e.Message)`. -/
def Error : GoError → String
  | ErrInvalidArgument p => "invalidArgument." ++ p
  | CorruptInputError n => "illegal base64 data at input byte " ++ toString n
  | jsonError msg => msg
  | other msg => msg
  | wrap cause message => message ++ ": " ++ Error cause
  | kcHTTPError status message => toString status ++ ":" ++ message
  | ForbiddenError => "ForbiddenError: Operation not permitted."
  | HTTPError status message => toString status ++ " " ++ message
  | ErrLimited => "rate limit exceeded"

/-- The type switch `case ErrInvalidArgument:` of `errorHandler`. -/
def isErrInvalidArgument : GoError → Bool
  | ErrInvalidArgument _ => true
  | _ => false

end GoError

/-! ## Standard base64 (`encoding/base64`, `StdEncoding`) -/

namespace base64

/-- The bytes of a Go string: the UTF-8 encoding of its characters. -/
def bytesOf (s : String) : List Nat :=
  (s.data.map String.utf8EncodeChar).flatten.map UInt8.toNat

/-- The decode map of the standard alphabet `A-Z a-z 0-9 + /`;
`0xff` marks a byte outside the alphabet. -/
def decodeMap (b : Nat) : Nat :=
  if 65 ≤ b ∧ b ≤ 90 then b - 65
  else if 97 ≤ b ∧ b ≤ 122 then b - 97 + 26
  else if 48 ≤ b ∧ b ≤ 57 then b - 48 + 52
  else if b = 43 then 62
  else if b = 47 then 63
  else 0xff

/-- The byte is `'\n'` or `'\r'`, which the decoder skips. -/
def isNewline (b : Nat) : Bool := b = 10 || b = 13

/-- The padding character `'='`. -/
def padChar : Nat := 61

/-- The three bytes of a full quantum of four 6-bit values
(`val := d0<<18 | d1<<12 | d2<<6 | d3`). -/
def quantumBytes (d0 d1 d2 d3 : Nat) : List Nat :=
  let val := d0 * 262144 + d1 * 4096 + d2 * 64 + d3
  [val / 65536 % 256, val / 256 % 256, val % 256]

/-- What `decodeQuantum` does once it has read a padding character at
position `j` of the quantum: `si` is the index just after that character,
`rest` the input from `si` on, `q` the 6-bit values read so far. -/
def decodePadding (si : Nat) (rest : List Nat) (q : List Nat) (out : List Nat) :
    Except GoError (List Nat) :=
  match q with
  | [] => .error (.CorruptInputError (si - 1))
  | [_] => .error (.CorruptInputError (si - 1))
  | [d0, d1] =>
    -- "==" is expected, the first "=" is already consumed; skip over newlines
    let skipped := rest.takeWhile isNewline
    let rest1 := rest.dropWhile isNewline
    let si1 := si + skipped.length
    match rest1 with
    | [] => .error (.CorruptInputError si1)
    | c :: rest2 =>
      if c ≠ padChar then .error (.CorruptInputError (si1 - 1))
      else
        let si2 := si1 + 1
        let rest3 := rest2.dropWhile isNewline
        let si3 := si2 + (rest2.takeWhile isNewline).length
        if rest3 ≠ [] then .error (.CorruptInputError si3)
        else .ok (out ++ (quantumBytes d0 d1 0 0).take 1)
  | d0 :: d1 :: d2 :: _ =>
    let rest3 := rest.dropWhile isNewline
    let si3 := si + (rest.takeWhile isNewline).length
    if rest3 ≠ [] then .error (.CorruptInputError si3)
    else .ok (out ++ (quantumBytes d0 d1 d2 0).take 2)

/-- The loop of `Encoding.Decode` over `decodeQuantum`: `si` is the index of
the next input byte, `q` the 6-bit values of the quantum being read, `out` the
bytes decoded so far. -/
def decodeLoop : List Nat → Nat → List Nat → List Nat → Except GoError (List Nat)
  | [], si, q, out =>
    if q.length = 0 then .ok out else .error (.CorruptInputError (si - q.length))
  | c :: rest, si, q, out =>
    if decodeMap c ≠ 0xff then
      match q with
      | [d0, d1, d2] => decodeLoop rest (si + 1) [] (out ++ quantumBytes d0 d1 d2 (decodeMap c))
      | _ => decodeLoop rest (si + 1) (q ++ [decodeMap c]) out
    else if isNewline c then decodeLoop rest (si + 1) q out
    else if c ≠ padChar then .error (.CorruptInputError si)
    else decodePadding (si + 1) rest q out

/-- `base64.StdEncoding.DecodeString`: the decoded bytes, or the
`CorruptInputError`. (Go also returns the bytes decoded before the error;
`decodeHTTPRequest` discards them.) -/
def DecodeString (s : String) : Except GoError (List Nat) :=
  decodeLoop (bytesOf s) 0 [] []

end base64

/-! ## `context`, `net/http` and the go-kit HTTP server -/

/-- A `context.Context`, as the values bound in it, most recent first. -/
abbrev Context := List (String × String)

/-- `context.WithValue(ctx, key, val)`. -/
def Context.WithValue (ctx : Context) (key val : String) : Context := (key, val) :: ctx

/-- `ctx.Value(key)`: the most recent binding of `key`. -/
def Context.Value (ctx : Context) (key : String) : Option String := List.lookup key ctx

namespace cs

/-- The context key `cs.CtContextCorrelationID` of `common-service`. -/
def CtContextCorrelationID : String := "correlation_id"

end cs

namespace textproto

/-- The bytes `validHeaderFieldByte` accepts besides letters and digits: the
other characters of an RFC 7230 token, by code point. -/
def tokenPunctuation : List Nat := [33, 35, 36, 37, 38, 39, 42, 43, 45, 46, 94, 95, 96, 124, 126]

/-- `validHeaderFieldByte(c)`: whether `c` may occur in a header field name. -/
def validHeaderFieldByte (c : Char) : Bool :=
  c.isAlphanum || tokenPunctuation.contains c.toNat

/-- The loop of `canonicalMIMEHeaderKey`: the first letter and every letter
after a dash in upper case, every other letter in lower case. `upper` is true
at the start and after a dash. -/
def canonicalLoop : Bool → List Char → List Char
  | _, [] => []
  | upper, c :: rest =>
    let c1 := if upper && c.isLower then c.toUpper
      else if !upper && c.isUpper then c.toLower else c
    c1 :: canonicalLoop (c1 == '-') rest

/-- `textproto.CanonicalMIMEHeaderKey(s)`: the canonical form of a header
name; a name with a byte that is not valid in a field name is returned
unchanged. -/
def CanonicalMIMEHeaderKey (s : String) : String :=
  if s.data.all validHeaderFieldByte then String.mk (canonicalLoop true s.data) else s

end textproto

namespace http

def StatusOK : Int := 200
def StatusBadRequest : Int := 400
def StatusInternalServerError : Int := 500
def StatusCreated : Int := 201
def StatusForbidden : Int := 403
def StatusTooManyRequests : Int := 429

/-- An `http.Header`, keys in canonical form. -/
abbrev Header := List (String × String)

/-- `h.Get(key)`: the value stored under the canonical form of `key`, `""`
when there is none. -/
def Header.Get (h : Header) (key : String) : String :=
  (List.lookup (textproto.CanonicalMIMEHeaderKey key) h).getD ""

/-- `h.Set(key, value)`: stores `value` under the canonical form of `key`. -/
def Header.Set (h : Header) (key value : String) : Header :=
  (textproto.CanonicalMIMEHeaderKey key, value)
    :: h.filter (fun kv => kv.1 != textproto.CanonicalMIMEHeaderKey key)

/-- A JSON value handed to `json.NewEncoder(w).Encode`. -/
inductive JSON where
  | str (s : String)
  | obj (members : List (String × String))
  deriving DecidableEq, Repr

/-- What was written to the body of a response: raw text, or the encoding of a JSON value. -/
inductive BodyWrite where
  | text (s : String)
  | json (v : JSON)
  deriving DecidableEq, Repr

/-- The observable state of an `http.ResponseWriter`: the header map, the
status code (`none` until the header is written), the writes to the body, and
whether a call on the writer panicked. -/
structure ResponseWriter where
  header : Header := []
  status : Option Int := none
  body : List BodyWrite := []
  panicked : Bool := false
  deriving DecidableEq, Repr

/-- `w.Header().Set(key, value)`. -/
def ResponseWriter.SetHeader (w : ResponseWriter) (key value : String) : ResponseWriter :=
  { w with header := Header.Set w.header key value }

/-- `checkWriteHeaderCode(code)` of `net/http`: whether `code` is a status
code `WriteHeader` accepts, that is a number of three digits. -/
def checkWriteHeaderCode (code : Int) : Bool := decide (100 ≤ code) && decide (code ≤ 999)

/-- `w.WriteHeader(code)`: a call after the header is written changes nothing;
otherwise `checkWriteHeaderCode` runs first, and a code outside `100..999`
makes the call panic with nothing written, which `panicked` records; a valid
code becomes the status. A caller stops at a panic. -/
def ResponseWriter.WriteHeader (w : ResponseWriter) (code : Int) : ResponseWriter :=
  match w.status with
  | some _ => w
  | none =>
    if checkWriteHeaderCode code then { w with status := some code }
    else { w with panicked := true }

/-- `w.Write(...)`: writes the header with `200` when it is not yet written. -/
def ResponseWriter.Write (w : ResponseWriter) (b : BodyWrite) : ResponseWriter :=
  let w1 := w.WriteHeader StatusOK
  { w1 with body := w1.body ++ [b] }

end http

/-- A value handed to the logger: text, or the JSON encoding of a value. -/
inductive LogValue where
  | text (s : String)
  | json (v : http.JSON)
  deriving DecidableEq, Repr

/-- One call of a leveled logger: the level and the key/values. -/
structure LogEntry where
  level : String
  keyvals : List LogValue
  deriving DecidableEq, Repr

namespace http_transport

/-- The fields of a go-kit `http.Server` set by `NewServer` and its options.
`R` is the type of HTTP requests, `α` of decoded requests, `ρ` of endpoint
responses; the endpoint runs on a state `σ` standing for everything behind
it. -/
structure Server (R α ρ σ : Type) where
  e : Context → α → σ → Except GoError ρ × σ
  dec : Context → R → Except GoError α
  enc : Context → http.ResponseWriter → ρ → http.ResponseWriter × Option GoError
  errorEncoder : Context → GoError → http.ResponseWriter → http.ResponseWriter × LogEntry
  before : List (Context → R → Context)

/-- What serving one request leaves behind: the response writer, the log
entries, the endpoint invocations, and the state behind the endpoint. -/
structure Served (α σ : Type) where
  w : http.ResponseWriter
  log : List LogEntry
  calls : List (Context × α)
  state : σ

/-- `Server.ServeHTTP` of go-kit: run the `before` functions, decode, call the
endpoint, encode; an error at any step goes to the error encoder and ends the
request. `ctx` is `r.Context()`. -/
def Server.ServeHTTP {R α ρ σ : Type} (s : Server R α ρ σ) (ctx : Context)
    (w : http.ResponseWriter) (r : R) (st : σ) : Served α σ :=
  let ctx1 := s.before.foldl (fun c f => f c r) ctx
  match s.dec ctx1 r with
  | .error err =>
    let out := s.errorEncoder ctx1 err w
    { w := out.1, log := [out.2], calls := [], state := st }
  | .ok request =>
    match s.e ctx1 request st with
    | (.error err, st1) =>
      let out := s.errorEncoder ctx1 err w
      { w := out.1, log := [out.2], calls := [(ctx1, request)], state := st1 }
    | (.ok response, st1) =>
      match s.enc ctx1 w response with
      | (w1, some err) =>
        let out := s.errorEncoder ctx1 err w1
        { w := out.1, log := [out.2], calls := [(ctx1, request)], state := st1 }
      | (w1, none) => { w := w1, log := [], calls := [(ctx1, request)], state := st1 }

end http_transport

namespace event

/-- KeycloakRequest is the Request for KeycloakEventReceiver endpoint. -/
structure KeycloakRequest where
  «Type» : String
  Object : String
  deriving DecidableEq, Repr

/-- Request has the fields Type and Object. -/
structure Request where
  «Type» : String
  Object : List Nat
  deriving DecidableEq, Repr

/-- The `*http.Request` of the ingestion endpoint: its header, and its body as
the outcome of `json.NewDecoder(r.Body).Decode(&request)`, that is the decoded
envelope or the error of `encoding/json`. -/
structure HTTPRequest where
  Header : http.Header
  Body : Except GoError KeycloakRequest
  deriving DecidableEq, Repr

/-- The message constants of `internal/keycloakb` used by `decodeHTTPRequest`
(their declarations are outside the examined sources). -/
structure Messages where
  MsgErrInvalidJSONRequest : String
  MsgErrInvalidBase64Object : String
  MsgErrInvalidLength : String
  Flatbuffer : String
  deriving DecidableEq, Repr

/-- fetchHTTPCorrelationID reads the correlation ID from the http header "X-Correlation-ID".
If the ID is not zero, we put it in the context. -/
def fetchHTTPCorrelationID (ctx : Context) (req : HTTPRequest) : Context :=
  let correlationID := http.Header.Get req.Header "X-Correlation-ID"
  if correlationID != "" then ctx.WithValue cs.CtContextCorrelationID correlationID else ctx

/-- decodeHTTPRequest decodes the http event request. -/
def decodeHTTPRequest (internal : Messages) (_ctx : Context) (r : HTTPRequest) :
    Except GoError Request :=
  match r.Body with
  | .error err => .error (.wrap err internal.MsgErrInvalidJSONRequest)
  | .ok request =>
    match base64.DecodeString request.Object with
    | .error err => .error (.wrap err internal.MsgErrInvalidBase64Object)
    | .ok bEvent =>
      let objType := request.«Type»
      if !(objType == "AdminEvent" || objType == "Event") then
        .error (.wrap (.ErrInvalidArgument "type") internal.MsgErrInvalidBase64Object)
      -- Check valid buffer (at least 4 bytes)
      else if bEvent.length < 4 then
        .error (.wrap (.ErrInvalidArgument "obj")
          (internal.MsgErrInvalidLength ++ "." ++ internal.Flatbuffer))
      else
        .ok { «Type» := objType, Object := bEvent }

/-- encodeHTTPReply encodes the http event reply. -/
def encodeHTTPReply {ρ : Type} (_ctx : Context) (w : http.ResponseWriter) (_response : ρ) :
    http.ResponseWriter × Option GoError :=
  (w.WriteHeader http.StatusOK, none)

/-- errorHandler encodes the reply when there is an error: the response writer
after the call, and the entry handed to the logger. -/
def errorHandler (_ctx : Context) (err : GoError) (w : http.ResponseWriter) :
    http.ResponseWriter × LogEntry :=
  let w1 := w.SetHeader "Content-Type" "application/json; charset=utf-8"
  let status :=
    match err.Cause with
    | .ErrInvalidArgument _ => http.StatusBadRequest
    | _ => http.StatusInternalServerError
  let entry : LogEntry :=
    ⟨"error", [.text "errorHandler", .text (toString status), .text "msg", .text err.Error]⟩
  let w2 := w1.WriteHeader status
  (w2.Write (.json (.obj [("error", err.Error)])), entry)

/-- MakeHTTPEventHandler makes a HTTP handler for the event endpoint. -/
def MakeHTTPEventHandler {ρ σ : Type} (internal : Messages)
    (e : Context → Request → σ → Except GoError ρ × σ) :
    http_transport.Server HTTPRequest Request ρ σ :=
  { e := e
    dec := decodeHTTPRequest internal
    enc := encodeHTTPReply
    errorEncoder := errorHandler
    before := [fetchHTTPCorrelationID] }

/-- Sample values for the message constants, used to evaluate the handler. -/
def sampleMessages : Messages :=
  { MsgErrInvalidJSONRequest := "invalidJSONRequest"
    MsgErrInvalidBase64Object := "invalidBase64Object"
    MsgErrInvalidLength := "invalidLength"
    Flatbuffer := "flatbuffer" }

end event

/-! ## Event dispatcher -/

namespace event

/-- A sink (`FuncEvent`): a named handler `handle(ctx, payload)` running on
the state `σ` of the outside world and returning its error, if any. -/
structure Sink (σ : Type) where
  name : String
  handle : Context → List Nat → σ → Option GoError × σ

/-- One observed invocation of a sink. -/
structure SinkCall where
  name : String
  ctx : Context
  payload : List Nat
  deriving DecidableEq, Repr

/-- What a dispatch leaves behind: the error reported to the caller, the
sink invocations in order, and the state of the outside world. -/
structure Dispatched (σ : Type) where
  err : Option GoError
  calls : List SinkCall
  state : σ

/-- Modelled from the spec: the fan-out of the Event Dispatcher, whose source
(`pkg/event/component.go`) is not among the examined files. Section 4.2:
every sink of the list is invoked exactly once, in order, with the same `ctx`
and payload; a sink that returns an error does not prevent subsequent sinks
from running. The outcome of each sink is dropped. -/
def invokeAll {σ : Type} (ctx : Context) (payload : List Nat) :
    List (Sink σ) → σ → List SinkCall × σ
  | [], st => ([], st)
  | s :: rest, st =>
    let st1 := (s.handle ctx payload st).2
    let r := invokeAll ctx payload rest st1
    (⟨s.name, ctx, payload⟩ :: r.1, r.2)

/-- Modelled from the spec: `Dispatch(ctx, Request)` of the Event Dispatcher
(the `MuxComponent` of `pkg/event`, not among the examined files). Section
4.2: resolves the sink list for the category of the request and invokes all
of it; it reports failure only for what happens before the fan-out, namely a
category with no registered sinks (the spec does not name that error). -/
def Dispatch {σ : Type} (registry : String → Option (List (Sink σ))) (ctx : Context)
    (req : Request) (st : σ) : Dispatched σ :=
  match registry req.«Type» with
  | none => { err := some (.other "no sink registered"), calls := [], state := st }
  | some sinks =>
    let r := invokeAll ctx req.Object sinks st
    { err := none, calls := r.1, state := r.2 }

/-- The sink list built in `main`:
`[]event.FuncEvent{consoleModule.Print, statisticModule.Stats, eventsDBModule.Store}`. -/
def fns {σ : Type} (consolePrint statisticStats eventsDBStore :
    Context → List Nat → σ → Option GoError × σ) : List (Sink σ) :=
  [⟨"consoleModule.Print", consolePrint⟩, ⟨"statisticModule.Stats", statisticStats⟩,
   ⟨"eventsDBModule.Store", eventsDBStore⟩]

/-- The registry wired in `main`: `NewComponent(fns, fns)` serves "Event",
`NewAdminComponent(fns, fns, fns, fns)` serves "AdminEvent", and
`NewMuxComponent` chooses between the two; every list is the same `fns`. -/
def mainRegistry {σ : Type} (consolePrint statisticStats eventsDBStore :
    Context → List Nat → σ → Option GoError × σ) : String → Option (List (Sink σ)) :=
  fun category =>
    if category = "Event" then some (fns consolePrint statisticStats eventsDBStore)
    else if category = "AdminEvent" then some (fns consolePrint statisticStats eventsDBStore)
    else none

end event

/-! ## Management operations and their audit trail -/

namespace cs

/-- The context keys of `common-service` read by the management component. -/
def CtContextAccessToken : String := "access_token"
def CtContextRealm : String := "realm"
def CtContextUsername : String := "username"

end cs

namespace database

/-- The keys of `common-service/database` naming the values of a reported event. -/
def CtEventRealmName : String := "realm_name"
def CtEventUserID : String := "user_id"
def CtEventUsername : String := "username"

end database

namespace kc

/-- A Go `map[string][]string`, as an association list. -/
abbrev Attributes := List (String × List String)

/-- `m[key] = value`. -/
def Attributes.set (m : Attributes) (key : String) (value : List String) : Attributes :=
  (key, value) :: m.filter (fun kv => kv.1 != key)

/-- `m[key]`, with presence. -/
def Attributes.get (m : Attributes) (key : String) : Option (List String) := List.lookup key m

/-- The fields of `kc.UserRepresentation` (keycloak-client) used by the tests. -/
structure UserRepresentation where
  Id : Option String := none
  Username : Option String := none
  Email : Option String := none
  Enabled : Option Bool := none
  EmailVerified : Option Bool := none
  FirstName : Option String := none
  LastName : Option String := none
  Attributes : Option Attributes := none
  CreatedTimestamp : Option Int := none
  deriving DecidableEq, Repr

/-- The fields of `kc.CredentialRepresentation` used by the tests. -/
structure CredentialRepresentation where
  Id : Option String := none
  «Type» : Option String := none
  Value : Option String := none
  deriving DecidableEq, Repr

/-- `kc.SmsCodeRepresentation`. -/
structure SmsCodeRepresentation where
  Code : Option String := none
  deriving DecidableEq, Repr

end kc

namespace management

namespace api

/-- Modelled from the spec: `api.UserRepresentation` of `api/management`,
whose declaration is not among the examined files; the fields are those set
by `component_test.go`. -/
structure UserRepresentation where
  ID : Option String := none
  Username : Option String := none
  Email : Option String := none
  Enabled : Option Bool := none
  EmailVerified : Option Bool := none
  FirstName : Option String := none
  LastName : Option String := none
  PhoneNumber : Option String := none
  PhoneNumberVerified : Option Bool := none
  Label : Option String := none
  Gender : Option String := none
  BirthDate : Option String := none
  Locale : Option String := none
  deriving DecidableEq, Repr

/-- Modelled from the spec: `api.PasswordRepresentation` of `api/management`,
whose declaration is not among the examined files. -/
structure PasswordRepresentation where
  Value : Option String := none
  deriving DecidableEq, Repr

/-- `strconv.FormatBool`. -/
def FormatBool (b : Bool) : String := if b then "true" else "false"

/-- Modelled from the spec: one step of `ConvertToKCUser` (not among the
examined files): `attributes[key] = []string{*value}` when the value is
present. -/
def setAttr (m : kc.Attributes) (key : String) (value : Option String) : kc.Attributes :=
  match value with
  | some v => m.set key [v]
  | none => m

/-- Modelled from the spec: `ConvertToKCUser` of `api/management`, whose
source is not among the examined files; the structural mapping of section 1,
as fixed by `TestConvertToKCUser` and `TestCreateUser`: the plain fields are
copied, the remaining ones become attributes, and `Attributes` stays nil when
there is none. -/
def ConvertToKCUser (user : UserRepresentation) : kc.UserRepresentation :=
  let a0 : kc.Attributes := []
  let a1 := setAttr a0 "phoneNumber" user.PhoneNumber
  let a2 := setAttr a1 "label" user.Label
  let a3 := setAttr a2 "gender" user.Gender
  let a4 := setAttr a3 "birthDate" user.BirthDate
  let a5 := setAttr a4 "phoneNumberVerified" (user.PhoneNumberVerified.map FormatBool)
  let a6 := setAttr a5 "locale" user.Locale
  { Username := user.Username
    Email := user.Email
    Enabled := user.Enabled
    EmailVerified := user.EmailVerified
    FirstName := user.FirstName
    LastName := user.LastName
    Attributes := if a6.length > 0 then some a6 else none }

end api

/-- The calls of the identity provider client used by the modelled
operations (the `KeycloakClient` mocked in `component_test.go`); a call
returning only an error returns `none` on success. -/
structure KeycloakClient where
  CreateUser : String → String → String → kc.UserRepresentation → Except GoError String
  DeleteUser : String → String → String → Option GoError
  GetUser : String → String → String → Except GoError kc.UserRepresentation
  UpdateUser : String → String → String → kc.UserRepresentation → Option GoError
  ResetPassword : String → String → String → kc.CredentialRepresentation → Option GoError
  SendNewEnrolmentCode : String → String → String → Except GoError kc.SmsCodeRepresentation
  GetCredentials : String → String → String → Except GoError (List kc.CredentialRepresentation)
  DeleteCredential : String → String → String → String → Option GoError

/-- `EventDBModule.ReportEvent(ctx, apiCall, origin, values...)`: the audit write. -/
abbrev ReportEventFn := Context → String → String → List String → Option GoError

/-- One call of `ReportEvent`. -/
structure ReportedEvent where
  ctx : Context
  apiCall : String
  origin : String
  values : List String
  deriving DecidableEq, Repr

/-- What an operation leaves behind: the value and error returned to its
caller, the user representations sent to the identity provider, the calls of
`ReportEvent` in order, and the log. -/
structure Outcome (α : Type) where
  result : Except GoError α
  written : List kc.UserRepresentation
  events : List ReportedEvent
  log : List LogEntry

/-- Modelled from the spec: the management component built by `NewComponent`
(`pkg/management/component.go` is not among the examined files): its identity
provider client, its audit write, and the two inputs drawn from outside: the user ID read from the location URL
returned at creation, and the password generated when none is offered. -/
structure component where
  keycloakClient : KeycloakClient
  ReportEvent : ReportEventFn
  userIDOfLocation : String → String
  generatedPassword : String

/-- The key/value pairs of a variadic `values ...string`. -/
def pairs : List String → List (String × String)
  | k :: v :: rest => (k, v) :: pairs rest
  | _ => []

/-- Modelled from the spec: the audit write of the Audit Trail Emitter
(`reportEvent` of `pkg/management/component.go`, not among the examined
files). Section 4.5: the event is written with origin "back-office"; if the
write fails, the error and the serialized event are logged and the failure is
swallowed. The log entry is the one expected by `component_test.go`. -/
def component.reportEvent (c : component) (ctx : Context) (apiCall : String)
    (values : List String) : List ReportedEvent × List LogEntry :=
  match c.ReportEvent ctx apiCall "back-office" values with
  | none => ([⟨ctx, apiCall, "back-office", values⟩], [])
  | some errEvent =>
    ([⟨ctx, apiCall, "back-office", values⟩],
     [⟨"error", [.text "err", .text errEvent.Error, .text "event",
        .json (.obj (("event_name", apiCall) :: pairs values))]⟩])

/-- Modelled from the spec: the failure path of an operation of
`pkg/management/component.go` (not among the examined files). The failure of
an identity provider call is logged as a warning and returned, and nothing is
reported (`component_test.go`, the "Error" cases). -/
def failed {α : Type} (err : GoError) (written : List kc.UserRepresentation) : Outcome α :=
  { result := .error err, written := written, events := [],
    log := [⟨"warn", [.text "err", .text err.Error]⟩] }

/-- Modelled from the spec: the reading of a context value by the management
component (`pkg/management/component.go` is not among the examined files):
the value bound to the key, `""` when there is none. -/
def ctxString (ctx : Context) (key : String) : String := (ctx.Value key).getD ""

/-- Modelled from the spec: `CreateUser` of `pkg/management/component.go`,
not among the examined files. Section 4.5 and `TestCreateUser`: the user is
created at the identity provider; on failure the error is returned; on success
one API_ACCOUNT_CREATION event is reported and the location is returned. -/
def component.CreateUser (c : component) (ctx : Context) (realmName : String)
    (user : api.UserRepresentation) : Outcome String :=
  let accessToken := ctxString ctx cs.CtContextAccessToken
  let ctxRealm := ctxString ctx cs.CtContextRealm
  let userRep := api.ConvertToKCUser user
  match c.keycloakClient.CreateUser accessToken ctxRealm realmName userRep with
  | .error err => failed err [userRep]
  | .ok locationURL =>
    let username := user.Username.getD ""
    let userID := c.userIDOfLocation locationURL
    let rep := c.reportEvent ctx "API_ACCOUNT_CREATION"
      [database.CtEventRealmName, realmName, database.CtEventUserID, userID,
       database.CtEventUsername, username]
    { result := .ok locationURL, written := [userRep], events := rep.1, log := rep.2 }

/-- Modelled from the spec: `DeleteUser` of `pkg/management/component.go`,
not among the examined files. Section 4.5 and `TestDeleteUser`: on success of
the identity provider one API_ACCOUNT_DELETION event is reported. -/
def component.DeleteUser (c : component) (ctx : Context) (realmName userID : String) :
    Outcome Unit :=
  let accessToken := ctxString ctx cs.CtContextAccessToken
  match c.keycloakClient.DeleteUser accessToken realmName userID with
  | some err => failed err []
  | none =>
    let rep := c.reportEvent ctx "API_ACCOUNT_DELETION"
      [database.CtEventRealmName, realmName, database.CtEventUserID, userID]
    { result := .ok (), written := [], events := rep.1, log := rep.2 }

/-- Modelled from the spec: the rule of section 4.5 for a contact field. The
field is changed when the request carries a value that is not the stored one. -/
def contactChanged (stored requested : Option String) : Bool :=
  match requested with
  | none => false
  | some v => stored != some v

/-- Modelled from the spec: the stored phone number compared by the contact
rule of section 4.5 (`pkg/management/component.go` is not among the examined
files): the first value of the attribute "phoneNumber". -/
def storedPhoneNumber (old : kc.UserRepresentation) : Option String :=
  match old.Attributes with
  | none => none
  | some m => (m.get "phoneNumber").bind List.head?

/-- Modelled from the spec: the request after the contact rule of section 4.5:
a changed email forces `EmailVerified` to false and a changed phone number
forces `PhoneNumberVerified` to false. -/
def forceUnverified (old : kc.UserRepresentation) (user : api.UserRepresentation) :
    api.UserRepresentation :=
  let user1 :=
    if contactChanged old.Email user.Email then { user with EmailVerified := some false } else user
  if contactChanged (storedPhoneNumber old) user1.PhoneNumber then
    { user1 with PhoneNumberVerified := some false }
  else user1

/-- Modelled from the spec: the attributes written back by `UpdateUser`
(`pkg/management/component.go` is not among the examined files): the stored
attributes overlaid with the requested ones, so that an update loses none
(`TestUpdateUser`, "update without attributes"). -/
def mergeAttributes (old new : Option kc.Attributes) : kc.Attributes :=
  (new.getD []).foldr (fun kv m => kc.Attributes.set m kv.1 kv.2) (old.getD [])

/-- Modelled from the spec: the representation `UpdateUser` writes back to the
identity provider (`pkg/management/component.go` is not among the examined
files): the converted request, after the contact rule, with the merged
attributes. -/
def updatedRepresentation (old : kc.UserRepresentation) (user : api.UserRepresentation) :
    kc.UserRepresentation :=
  let userRep := api.ConvertToKCUser (forceUnverified old user)
  { userRep with Attributes := some (mergeAttributes old.Attributes userRep.Attributes) }

/-- Modelled from the spec: the lock rule of the Audit Trail Emitter
(`pkg/management/component.go` is not among the examined files). Section 4.5:
`enabled` going from true to false emits LOCK_ACCOUNT, from false to true
UNLOCK_ACCOUNT, and no transition emits nothing for this rule. The value
before is the stored one; the value after is the one of the request, and a
request without `enabled` leaves the stored value as it is. -/
def lockEventType (old : kc.UserRepresentation) (user : api.UserRepresentation) :
    Option String :=
  match old.Enabled, user.Enabled with
  | some true, some false => some "LOCK_ACCOUNT"
  | some false, some true => some "UNLOCK_ACCOUNT"
  | _, _ => none

/-- Modelled from the spec: `UpdateUser` of `pkg/management/component.go`, not
among the examined files. Section 4.5: the stored user is read, the request is
written back after the contact rule, and after a successful write the event of
the lock rule, if any, is reported. -/
def component.UpdateUser (c : component) (ctx : Context) (realmName userID : String)
    (user : api.UserRepresentation) : Outcome Unit :=
  let accessToken := ctxString ctx cs.CtContextAccessToken
  match c.keycloakClient.GetUser accessToken realmName userID with
  | .error err => failed err []
  | .ok oldUserKc =>
    let userRep := updatedRepresentation oldUserKc user
    match c.keycloakClient.UpdateUser accessToken realmName userID userRep with
    | some err => failed err [userRep]
    | none =>
      match lockEventType oldUserKc user with
      | none => { result := .ok (), written := [userRep], events := [], log := [] }
      | some ctEventType =>
        let username := user.Username.getD ""
        let rep := c.reportEvent ctx ctEventType
          [database.CtEventRealmName, realmName, database.CtEventUserID, userID,
           database.CtEventUsername, username]
        { result := .ok (), written := [userRep], events := rep.1, log := rep.2 }

/-- Modelled from the spec: `ResetPassword` of `pkg/management/component.go`,
not among the examined files. Section 4.5 and `TestResetPassword`: the offered
password, or a generated one when none is offered, is set at the identity
provider; on success one INIT_PASSWORD event is reported and the generated
password (empty when one was offered) is returned. -/
def component.ResetPassword (c : component) (ctx : Context) (realmName userID : String)
    (password : api.PasswordRepresentation) : Outcome String :=
  let accessToken := ctxString ctx cs.CtContextAccessToken
  let pwd := match password.Value with
    | none => c.generatedPassword
    | some _ => ""
  let credKc : kc.CredentialRepresentation :=
    { «Type» := some "password", Value := some (password.Value.getD c.generatedPassword) }
  match c.keycloakClient.ResetPassword accessToken realmName userID credKc with
  | some err => failed err []
  | none =>
    let rep := c.reportEvent ctx "INIT_PASSWORD"
      [database.CtEventRealmName, realmName, database.CtEventUserID, userID]
    { result := .ok pwd, written := [], events := rep.1, log := rep.2 }

/-- Modelled from the spec: `SendNewEnrolmentCode` of
`pkg/management/component.go`, not among the examined files. Section 4.5 and
`TestSendNewEnrolmentCode`: on success one SMS_CHALLENGE event is reported and
the code is returned. -/
def component.SendNewEnrolmentCode (c : component) (ctx : Context)
    (realmName userID : String) : Outcome String :=
  let accessToken := ctxString ctx cs.CtContextAccessToken
  match c.keycloakClient.SendNewEnrolmentCode accessToken realmName userID with
  | .error err => failed err []
  | .ok smsCodeKc =>
    let rep := c.reportEvent ctx "SMS_CHALLENGE"
      [database.CtEventRealmName, realmName, database.CtEventUserID, userID]
    { result := .ok (smsCodeKc.Code.getD ""), written := [], events := rep.1, log := rep.2 }

end management

/-! ## Management HTTP transport (`pkg/management/http.go`) -/

namespace management

/-- CreateMissingParameterError creates a HTTPResponse for an error relative to a missing
mandatory parameter. -/
def CreateMissingParameterError (name : String) : GoError :=
  .HTTPError http.StatusBadRequest ("Missing mandatory parameter " ++ name)

/-- managementErrorHandler encodes the reply when there is an error. The type
switch is on `errors.Cause(err)`; the comparison with `ratelimit.ErrLimited`
in the default case is on `err` itself. In the `HTTPError` case the function
ends at a panic of `WriteHeader`, before `w.Write`. -/
def managementErrorHandler (_ctx : Context) (err : GoError) (w : http.ResponseWriter) :
    http.ResponseWriter :=
  match err.Cause with
  | .kcHTTPError HTTPStatus _ => w.WriteHeader HTTPStatus
  | .ForbiddenError => w.WriteHeader http.StatusForbidden
  | .HTTPError Status Message =>
    let w1 := w.WriteHeader Status
    if w1.panicked then w1 else w1.Write (.text Message)
  | _ =>
    if err = .ErrLimited then w.WriteHeader http.StatusTooManyRequests
    else w.WriteHeader http.StatusInternalServerError

end management

/-! ## Audit events API (`api/events/api.go`) -/

namespace sql

/-- `sql.NullString`: a string that may be NULL; `Valid` is true when it is not. -/
structure NullString where
  String : String
  Valid : Bool
  deriving DecidableEq, Repr

end sql

namespace json

/-- A JSON value, as produced by `encoding/json`. -/
inductive Value where
  | null
  | bool (b : Bool)
  | number (n : Int)
  | string (s : String)
  | array (items : List Value)
  | object (members : List (String × Value))

/-- The member of a JSON object with the given name, when the value is an
object that has one. -/
def Value.member (v : Value) (name : String) : Option Value :=
  match v with
  | .object members => List.lookup name members
  | _ => none

/-- A struct field tagged `omitempty` with an integer value: left out when zero. -/
def omitemptyInt (name : String) (n : Int) : List (String × Value) :=
  if n = 0 then [] else [(name, .number n)]

/-- A struct field tagged `omitempty` with a string value: left out when empty. -/
def omitemptyString (name : String) (s : String) : List (String × Value) :=
  if s = "" then [] else [(name, .string s)]

end json

namespace events_api

/-- AuditRepresentation elements returned by GetEvents. -/
structure AuditRepresentation where
  AuditID : Int
  AuditTime : Int
  Origin : String
  RealmName : String
  AgentUserID : String
  AgentUsername : String
  AgentRealmName : String
  UserID : String
  Username : String
  CtEventType : String
  KcEventType : String
  KcOperationType : String
  ClientID : String
  AdditionalInfo : String
  deriving DecidableEq, Repr

/-- AuditEventsRepresentation is the type of the GetEvents response. `Events`
is a Go slice: `none` is the nil slice, `some l` a slice with the elements `l`. -/
structure AuditEventsRepresentation where
  Events : Option (List AuditRepresentation)
  Count : Int
  deriving DecidableEq, Repr

/-- DbAuditRepresentation is a non serializable AuditRepresentation read from database. -/
structure DbAuditRepresentation where
  AuditID : Int
  AuditTime : Int
  Origin : sql.NullString
  RealmName : sql.NullString
  AgentUserID : sql.NullString
  AgentUsername : sql.NullString
  AgentRealmName : sql.NullString
  UserID : sql.NullString
  Username : sql.NullString
  CtEventType : sql.NullString
  KcEventType : sql.NullString
  KcOperationType : sql.NullString
  ClientID : sql.NullString
  AdditionalInfo : sql.NullString
  deriving DecidableEq, Repr

/-- EventSummaryRepresentation elements returned by GetEventsSummary. -/
structure EventSummaryRepresentation where
  Origins : Option (List String)
  Realms : Option (List String)
  CtEventTypes : Option (List String)
  deriving DecidableEq, Repr

/-- The function `toString` of `api/events/api.go`. -/
def toString (sqlValue : sql.NullString) : String :=
  if sqlValue.Valid then sqlValue.String else ""

/-- ToAuditRepresentation converts a DbAuditRepresentation to a serializable value. -/
def DbAuditRepresentation.ToAuditRepresentation (dba : DbAuditRepresentation) :
    AuditRepresentation :=
  { AuditID := dba.AuditID
    AuditTime := dba.AuditTime
    Origin := toString dba.Origin
    RealmName := toString dba.RealmName
    AgentUserID := toString dba.AgentUserID
    AgentUsername := toString dba.AgentUsername
    AgentRealmName := toString dba.AgentRealmName
    UserID := toString dba.UserID
    Username := toString dba.Username
    CtEventType := toString dba.CtEventType
    KcEventType := toString dba.KcEventType
    KcOperationType := toString dba.KcOperationType
    ClientID := toString dba.ClientID
    AdditionalInfo := toString dba.AdditionalInfo }

/-- The encoding of an AuditRepresentation by `encoding/json`, following its
struct tags: the members in the order of the fields, each tagged `omitempty`. -/
def AuditRepresentation.Marshal (a : AuditRepresentation) : json.Value :=
  .object (json.omitemptyInt "auditId" a.AuditID
    ++ json.omitemptyInt "auditTime" a.AuditTime
    ++ json.omitemptyString "origin" a.Origin
    ++ json.omitemptyString "realmName" a.RealmName
    ++ json.omitemptyString "agentUserId" a.AgentUserID
    ++ json.omitemptyString "agentUsername" a.AgentUsername
    ++ json.omitemptyString "agentRealmName" a.AgentRealmName
    ++ json.omitemptyString "userId" a.UserID
    ++ json.omitemptyString "username" a.Username
    ++ json.omitemptyString "ctEventType" a.CtEventType
    ++ json.omitemptyString "kcEventType" a.KcEventType
    ++ json.omitemptyString "kcOperationType" a.KcOperationType
    ++ json.omitemptyString "clientId" a.ClientID
    ++ json.omitemptyString "additionalInfo" a.AdditionalInfo)

/-- The encoding of an AuditEventsRepresentation by `encoding/json`, following
its struct tags `json:"events"` and `json:"count"` (no `omitempty`): a nil
slice is encoded as `null`, any other slice as an array. -/
def AuditEventsRepresentation.Marshal (r : AuditEventsRepresentation) : json.Value :=
  .object [("events",
      match r.Events with
      | none => .null
      | some events => .array (events.map AuditRepresentation.Marshal)),
    ("count", .number r.Count)]

end events_api

/-! ## Events query endpoint -/

namespace url

/-- The query of a URL (`url.Values`), as its name/value pairs in order. -/
abbrev Values := List (String × String)

/-- `v.Get(key)`: the first value of the parameter, `""` when there is none. -/
def Values.Get (v : Values) (key : String) : String := (List.lookup key v).getD ""

end url

namespace events

/-- Modelled from the spec: the parameters the events endpoints hand to the
component (`pkg/events/http.go` and its endpoints are not among the examined
files). Section 4.4: unknown parameter names are ignored. `known` lists the
known filter and pagination parameters, each with its name in the URL and the
key under which the component receives it (`TestHTTPManagementHandler` of
`pkg/events` fixes "realmTarget" to "realm"); as in `decodeManagementRequest`,
a parameter is handed over when its first value is not empty. -/
def requestParameters (known : List (String × String)) (query : url.Values) :
    List (String × String) :=
  known.filterMap (fun p =>
    if url.Values.Get query p.1 != "" then some (p.2, url.Values.Get query p.1) else none)

/-- Modelled from the spec: a table of known parameters for the filter and
pagination dimensions of sections 4.3 and 4.4 (the declaration is not among
the examined files); only the entry for "realmTarget" is fixed by the test. -/
def sampleKnownParameters : List (String × String) :=
  [("origin", "origin"), ("realmTarget", "realm"), ("ctEventType", "ctEventType"),
   ("dateFrom", "dateFrom"), ("dateTo", "dateTo"), ("first", "first"), ("max", "max")]

end events

/-! ## Management request decoding and reply encoding (`pkg/management/http.go`) -/

/-- A Go `map[string]string`, as an association list with one entry per key. -/
abbrev StringMap := List (String × String)

/-- `m[key] = value`. -/
def StringMap.set (m : StringMap) (key value : String) : StringMap :=
  (key, value) :: m.filter (fun kv => kv.1 != key)

/-- `m[key]`, with presence. -/
def StringMap.get? (m : StringMap) (key : String) : Option String := List.lookup key m

/-- `m[key]`: the value, `""` when the key is absent. -/
def StringMap.get (m : StringMap) (key : String) : String := (List.lookup key m).getD ""

namespace http

/-- The `*http.Request` of a management endpoint: the header, whether `req.TLS`
is not nil, `req.Host`, the content of `req.Body`, `req.URL.Query()` and the
path variables `mux.Vars(req)`. -/
structure Request where
  Header : Header
  TLS : Bool
  Host : String
  Body : String
  Query : url.Values
  Vars : StringMap
  deriving DecidableEq, Repr

end http

namespace management

/-- The function `getScheme` of `pkg/management/http.go`. -/
def getScheme (req : http.Request) : String :=
  let xForwardedProtoHeader := http.Header.Get req.Header "X-Forwarded-Proto"
  if xForwardedProtoHeader != "" then xForwardedProtoHeader
  else if req.TLS = false then "http"
  else "https"

/-- The path parameters fetched by `decodeManagementRequest`. -/
def pathKeys : List String := ["realm", "userID", "clientID", "roleID", "credentialID"]

/-- The query parameters fetched by `decodeManagementRequest`. -/
def queryKeys : List String :=
  ["email", "firstName", "lastName", "max", "username", "client_id", "redirect_uri", "group"]

/-- decodeManagementRequest gets the HTTP parameters and body content. -/
def decodeManagementRequest (_ctx : Context) (req : http.Request) :
    Except GoError StringMap :=
  let request : StringMap := []
  -- Fetch path parameter such as realm, userID, ...
  let m := req.Vars
  let request := pathKeys.foldl (fun request key => request.set key (m.get key)) request
  let request := request.set "scheme" (getScheme req)
  let request := request.set "host" req.Host
  let request := request.set "body" req.Body
  let request := queryKeys.foldl
    (fun request key =>
      if url.Values.Get req.Query key != "" then request.set key (url.Values.Get req.Query key)
      else request)
    request
  .ok request

/-- The reply handed to `encodeManagementReply` (an `interface{}`): nil, a
`LocationHeader{URL}`, or a value of another type, given by the outcome of
`json.MarshalIndent(rep, "", " ")` on it. -/
inductive Reply where
  | nil
  | LocationHeader (URL : String)
  | value (marshalIndent : Except GoError String)
  deriving DecidableEq, Repr

/-- encodeManagementReply encodes the reply. -/
def encodeManagementReply (_ctx : Context) (w : http.ResponseWriter) (rep : Reply) :
    http.ResponseWriter × Option GoError :=
  match rep with
  | .LocationHeader URL =>
    let w := w.SetHeader "Location" URL
    let w := w.WriteHeader http.StatusCreated
    (w, none)
  | .nil => (w.WriteHeader http.StatusOK, none)
  | .value marshalIndent =>
    let w := w.SetHeader "Content-Type" "application/json; charset=utf-8"
    let w := w.WriteHeader http.StatusOK
    match marshalIndent with
    | .ok json => (w.Write (.text json), none)
    | .error _ => (w, none)

end management

/-! ## Start-up wiring and configuration (`cmd/keycloakb/keycloak_bridge.go`) -/

namespace cmd

/-- The kinds of middleware `main` wraps around the units of the event service. -/
inductive Wrapper where
  | Instrumenting
  | Logging
  | Tracing
  | Tracking
  deriving DecidableEq, Repr

/-- A decorated unit: the constructor of its base implementation and the
wrappers around it, outermost first. -/
structure Decorated where
  base : String
  wrappers : List Wrapper
  deriving DecidableEq, Repr

/-- `unit = MakeXxxMW(...)(unit)`: the middleware becomes the outermost wrapper. -/
def Decorated.wrap (unit : Decorated) (mw : Wrapper) : Decorated :=
  { unit with wrappers := mw :: unit.wrappers }

/-- The block `var consoleModule event.ConsoleModule` of `main`. -/
def consoleModule : Decorated :=
  let consoleModule : Decorated := ⟨"event.NewConsoleModule", []⟩
  let consoleModule := consoleModule.wrap .Instrumenting
  let consoleModule := consoleModule.wrap .Logging
  let consoleModule := consoleModule.wrap .Tracing
  consoleModule

/-- The block `var statisticModule event.StatisticModule` of `main`. -/
def statisticModule : Decorated :=
  let statisticModule : Decorated := ⟨"event.NewStatisticModule", []⟩
  let statisticModule := statisticModule.wrap .Instrumenting
  let statisticModule := statisticModule.wrap .Logging
  let statisticModule := statisticModule.wrap .Tracing
  statisticModule

/-- The block `var eventsDBModule database.EventsDBModule` of `main`. -/
def eventsDBModule : Decorated :=
  let eventsDBModule : Decorated := ⟨"database.NewEventsDBModule", []⟩
  let eventsDBModule := eventsDBModule.wrap .Instrumenting
  let eventsDBModule := eventsDBModule.wrap .Logging
  let eventsDBModule := eventsDBModule.wrap .Tracing
  eventsDBModule

/-- The block `var eventAdminComponent event.AdminComponent` of `main`. -/
def eventAdminComponent : Decorated :=
  let eventAdminComponent : Decorated := ⟨"event.NewAdminComponent", []⟩
  let eventAdminComponent := eventAdminComponent.wrap .Instrumenting
  let eventAdminComponent := eventAdminComponent.wrap .Logging
  let eventAdminComponent := eventAdminComponent.wrap .Tracing
  eventAdminComponent

/-- The block `var eventComponent event.Component` of `main`. -/
def eventComponent : Decorated :=
  let eventComponent : Decorated := ⟨"event.NewComponent", []⟩
  let eventComponent := eventComponent.wrap .Instrumenting
  let eventComponent := eventComponent.wrap .Logging
  let eventComponent := eventComponent.wrap .Tracing
  eventComponent

/-- The block `var muxComponent event.MuxComponent` of `main`. -/
def muxComponent : Decorated :=
  let muxComponent : Decorated := ⟨"event.NewMuxComponent", []⟩
  let muxComponent := muxComponent.wrap .Instrumenting
  let muxComponent := muxComponent.wrap .Logging
  let muxComponent := muxComponent.wrap .Tracing
  let muxComponent := muxComponent.wrap .Tracking
  muxComponent

/-- The function `configureEventsDbModule`. -/
def configureEventsDbModule (baseEventsDBModule : Decorated) : Decorated :=
  let eventsDBModule := baseEventsDBModule.wrap .Instrumenting
  let eventsDBModule := eventsDBModule.wrap .Logging
  let eventsDBModule := eventsDBModule.wrap .Tracing
  eventsDBModule

/-- The map `censoredParameters` filled by `config`, as the list of its keys. -/
def censoredParameters : List String :=
  ["influx-password", "sentry-dsn", "event-basic-auth-token"]

/-- `strings.Contains(s, substr)`. -/
def Contains (s substr : String) : Bool := decide (substr.data <:+: s.data)

/-- The order of Go strings, byte by byte: `a <= b`. -/
def bytesLE : List Nat → List Nat → Bool
  | [], _ => true
  | _ :: _, [] => false
  | a :: as, b :: bs => decide (a < b) || (a == b && bytesLE as bs)

/-- The comparison `a <= b` of two Go strings. -/
def stringLE (a b : String) : Prop := bytesLE (base64.bytesOf a) (base64.bytesOf b) = true

instance : DecidableRel stringLE := fun a b =>
  inferInstanceAs (Decidable (bytesLE (base64.bytesOf a) (base64.bytesOf b) = true))

/-- `sort.Strings`: the strings in ascending order. -/
def sortStrings (keys : List String) : List String :=
  keys.insertionSort stringLE

/-- The end of `config`, "Log config in alphabetical order": `allKeys` is
`v.AllKeys()` and `get` is `v.Get`, rendered as text; the result is the calls
of `logger.Info` in order. -/
def logConfig (allKeys : List String) (get : String → String) : List LogEntry :=
  let keys := sortStrings allKeys
  keys.map (fun k =>
    if k ∈ censoredParameters then ⟨"info", [.text k, .text "*************"]⟩
    else if Contains k "password" then ⟨"info", [.text k, .text "*************"]⟩
    else ⟨"info", [.text k, .text (get k)]⟩)

end cmd

namespace management

/-- A management request: `GET /realms/master?email=toto@toto.com&unused=value&max=`
on host "toto.com", without TLS. -/
def sampleRequest : http.Request :=
  { Header := [], TLS := false, Host := "toto.com", Body := "",
    Query := [("email", "toto@toto.com"), ("unused", "value"), ("max", "")],
    Vars := [("realm", "master")] }

end management

namespace events_api

/-- An audit event whose id and time are both zero. -/
def sampleZeroAudit : AuditRepresentation :=
  { AuditID := 0, AuditTime := 0, Origin := "back-office", RealmName := "master"
    AgentUserID := "", AgentUsername := "", AgentRealmName := "", UserID := "", Username := ""
    CtEventType := "", KcEventType := "", KcOperationType := "", ClientID := ""
    AdditionalInfo := "" }

end events_api

/-! ## Sample collaborators, used to evaluate the operations -/

namespace events_api

/-- A stored row whose optional columns are all absent, with a residual
string in the absent Origin column. -/
def sampleRowAbsent : DbAuditRepresentation :=
  { AuditID := 456, AuditTime := 1563000000
    Origin := ⟨"residual", false⟩, RealmName := ⟨"", false⟩, AgentUserID := ⟨"", false⟩
    AgentUsername := ⟨"", false⟩, AgentRealmName := ⟨"", false⟩, UserID := ⟨"", false⟩
    Username := ⟨"", false⟩, CtEventType := ⟨"", false⟩, KcEventType := ⟨"", false⟩
    KcOperationType := ⟨"", false⟩, ClientID := ⟨"", false⟩, AdditionalInfo := ⟨"", false⟩ }

/-- The same row with the Origin column present and holding the empty string. -/
def sampleRowEmpty : DbAuditRepresentation :=
  { sampleRowAbsent with Origin := ⟨"", true⟩ }

end events_api

namespace management

/-- An identity provider client on which every call succeeds: `GetUser`
returns `stored`, `CreateUser` the location `location`, `SendNewEnrolmentCode`
the code "1234" and `GetCredentials` the list `creds`. -/
def sampleClient (stored : kc.UserRepresentation) (location : String)
    (creds : List kc.CredentialRepresentation) : KeycloakClient :=
  { CreateUser := fun _ _ _ _ => .ok location
    DeleteUser := fun _ _ _ => none
    GetUser := fun _ _ _ => .ok stored
    UpdateUser := fun _ _ _ _ => none
    ResetPassword := fun _ _ _ _ => none
    SendNewEnrolmentCode := fun _ _ _ => .ok { Code := some "1234" }
    GetCredentials := fun _ _ _ => .ok creds
    DeleteCredential := fun _ _ _ _ => none }

/-- An audit write that always succeeds. -/
def succeedingReportEvent : ReportEventFn := fun _ _ _ _ => none

/-- The component of the tests: the user ID is the part of the location after
its last "/", and the generated password is fixed. -/
def sampleComponent (client : KeycloakClient) (report : ReportEventFn) : component :=
  { keycloakClient := client
    ReportEvent := report
    userIDOfLocation := fun location =>
      String.mk (location.data.reverse.takeWhile (fun ch => ch != '/')).reverse
    generatedPassword := "A123456b" }

/-- The context of the tests: access token, realm "master" and a user name. -/
def sampleContext : Context :=
  [(cs.CtContextUsername, "username"), (cs.CtContextRealm, "master"),
   (cs.CtContextAccessToken, "TOKEN==")]

end management

namespace event

/-- An endpoint that counts its invocations and returns no error. -/
def countingEndpoint : Context → Request → Nat → Except GoError Unit × Nat :=
  fun _ _ n => (.ok (), n + 1)

/-- A sink that counts its invocations and always returns an error. -/
def failingSink : Context → List Nat → Nat → Option GoError × Nat :=
  fun _ _ n => (some (.other "sink failure"), n + 1)

/-- A sink that counts its invocations and returns no error. -/
def countingSink : Context → List Nat → Nat → Option GoError × Nat :=
  fun _ _ n => (none, n + 1)

end event

/-! ## Theorems -/

section Theorems

open event http_transport management events

/-! ### Header names and status codes of `net/http` -/

theorem canonicalKeys :
    textproto.CanonicalMIMEHeaderKey "Content-Type" = "Content-Type"
      ∧ textproto.CanonicalMIMEHeaderKey "Location" = "Location"
      ∧ textproto.CanonicalMIMEHeaderKey "X-Forwarded-Proto" = "X-Forwarded-Proto" := by
  decide

theorem CanonicalMIMEHeaderKey_XCorrelationID :
    textproto.CanonicalMIMEHeaderKey "X-Correlation-ID" = "X-Correlation-Id" := by decide

theorem checkWriteHeaderCode_iff (code : Int) :
    http.checkWriteHeaderCode code = true ↔ 100 ≤ code ∧ code ≤ 999 := by
  simp [http.checkWriteHeaderCode]

theorem checkWriteHeaderCode_constants :
    http.checkWriteHeaderCode http.StatusOK = true
      ∧ http.checkWriteHeaderCode http.StatusBadRequest = true
      ∧ http.checkWriteHeaderCode http.StatusInternalServerError = true
      ∧ http.checkWriteHeaderCode http.StatusCreated = true
      ∧ http.checkWriteHeaderCode http.StatusForbidden = true
      ∧ http.checkWriteHeaderCode http.StatusTooManyRequests = true := by
  decide

/-! ### The base64 decoder fails only with `CorruptInputError` -/

theorem base64_decodePadding_error (si : Nat) (rest q out : List Nat) (e : GoError)
    (h : base64.decodePadding si rest q out = .error e) : ∃ n, e = .CorruptInputError n := by
  unfold base64.decodePadding at h
  split at h
  · exact ⟨_, (Except.error.inj h).symm⟩
  · exact ⟨_, (Except.error.inj h).symm⟩
  · dsimp only at h
    split at h
    · exact ⟨_, (Except.error.inj h).symm⟩
    · split at h
      · exact ⟨_, (Except.error.inj h).symm⟩
      · split at h
        · exact ⟨_, (Except.error.inj h).symm⟩
        · cases h
  · dsimp only at h
    split at h
    · exact ⟨_, (Except.error.inj h).symm⟩
    · cases h

theorem base64_decodeLoop_error (src : List Nat) :
    ∀ (si : Nat) (q out : List Nat) (e : GoError),
      base64.decodeLoop src si q out = .error e → ∃ n, e = .CorruptInputError n := by
  induction src with
  | nil =>
    intro si q out e h
    unfold base64.decodeLoop at h
    split at h
    · cases h
    · exact ⟨_, (Except.error.inj h).symm⟩
  | cons c rest ih =>
    intro si q out e h
    unfold base64.decodeLoop at h
    split at h
    · split at h
      · exact ih _ _ _ _ h
      · exact ih _ _ _ _ h
    · split at h
      · exact ih _ _ _ _ h
      · split at h
        · exact ⟨_, (Except.error.inj h).symm⟩
        · exact base64_decodePadding_error _ _ _ _ _ h

theorem base64_DecodeString_error (s : String) (e : GoError)
    (h : base64.DecodeString s = .error e) : ∃ n, e = .CorruptInputError n :=
  base64_decodeLoop_error _ _ _ _ _ h

/-! ### The two outcomes of `decodeHTTPRequest` after a successful base64 decoding -/

theorem decodeHTTPRequest_of_short (internal : Messages) (ctx : Context) (r : HTTPRequest)
    (kr : KeycloakRequest) (b : List Nat)
    (hbody : r.Body = .ok kr) (hobj : base64.DecodeString kr.Object = .ok b)
    (htype : kr.«Type» = "Event" ∨ kr.«Type» = "AdminEvent") (hlen : b.length < 4) :
    decodeHTTPRequest internal ctx r
      = .error (.wrap (.ErrInvalidArgument "obj")
          (internal.MsgErrInvalidLength ++ "." ++ internal.Flatbuffer)) := by
  rcases htype with h | h <;> simp [decodeHTTPRequest, hbody, hobj, h, hlen]

theorem decodeHTTPRequest_of_long (internal : Messages) (ctx : Context) (r : HTTPRequest)
    (kr : KeycloakRequest) (b : List Nat)
    (hbody : r.Body = .ok kr) (hobj : base64.DecodeString kr.Object = .ok b)
    (htype : kr.«Type» = "Event" ∨ kr.«Type» = "AdminEvent") (hlen : 4 ≤ b.length) :
    decodeHTTPRequest internal ctx r = .ok { «Type» := kr.«Type», Object := b } := by
  have hlen' : ¬ b.length < 4 := by omega
  rcases htype with h | h <;> simp [decodeHTTPRequest, hbody, hobj, h, hlen']

/-! ### Event receiver: `decodeHTTPRequest` -/

/-- C1, as stated, fails: for the envelope with Type "Foo" and Obj "!!!!"
(not base64), `decodeHTTPRequest` returns the base64 error, whose cause is a
`CorruptInputError` and not `ErrInvalidArgument{InvalidParam: "type"}`. -/
theorem decodeHTTPRequest_type_after_base64_counterexample :
    ("Foo" ≠ "Event" ∧ "Foo" ≠ "AdminEvent") ∧
    decodeHTTPRequest sampleMessages [] ⟨[], .ok ⟨"Foo", "!!!!"⟩⟩
      = .error (.wrap (.CorruptInputError 0) "invalidBase64Object") ∧
    (GoError.wrap (.CorruptInputError 0) "invalidBase64Object").Cause
      ≠ .ErrInvalidArgument "type" := by
  decide

/-- C1 (amended): for every envelope whose Obj is valid standard base64 and
whose Type is neither "Event" nor "AdminEvent", `decodeHTTPRequest` returns no
Request and fails with `ErrInvalidArgument{InvalidParam: "type"}` wrapped by
`errors.Wrap`, whatever Obj decodes to. -/
theorem decodeHTTPRequest_unknown_type (internal : Messages) (ctx : Context) (r : HTTPRequest)
    (kr : KeycloakRequest) (b : List Nat)
    (hbody : r.Body = .ok kr) (hobj : base64.DecodeString kr.Object = .ok b)
    (hA : kr.«Type» ≠ "AdminEvent") (hE : kr.«Type» ≠ "Event") :
    decodeHTTPRequest internal ctx r
        = .error (.wrap (.ErrInvalidArgument "type") internal.MsgErrInvalidBase64Object)
      ∧ (GoError.wrap (.ErrInvalidArgument "type") internal.MsgErrInvalidBase64Object).Cause
        = .ErrInvalidArgument "type" := by
  refine ⟨?_, rfl⟩
  simp [decodeHTTPRequest, hbody, hobj, hA, hE]

/-- Witness of C1 (amended): the theorem applied at a concrete input. -/
theorem decodeHTTPRequest_unknown_type_witness :
    decodeHTTPRequest sampleMessages [] ⟨[], .ok ⟨"Foo", "YWJjZA=="⟩⟩
        = .error (.wrap (.ErrInvalidArgument "type") sampleMessages.MsgErrInvalidBase64Object)
      ∧ (GoError.wrap (.ErrInvalidArgument "type") sampleMessages.MsgErrInvalidBase64Object).Cause
        = .ErrInvalidArgument "type" :=
  decodeHTTPRequest_unknown_type sampleMessages [] ⟨[], .ok ⟨"Foo", "YWJjZA=="⟩⟩
    ⟨"Foo", "YWJjZA=="⟩ [97, 98, 99, 100] rfl (by decide) (by decide) (by decide)

/-- C2, as stated, fails: for the envelope with Type "Event" and Obj "YWI="
(the base64 of the two bytes "ab"), the validation error is tagged "obj", not
"length". -/
theorem decodeHTTPRequest_short_payload_tag_counterexample :
    base64.DecodeString "YWI=" = .ok [97, 98] ∧
    decodeHTTPRequest sampleMessages [] ⟨[], .ok ⟨"Event", "YWI="⟩⟩
      = .error (.wrap (.ErrInvalidArgument "obj") "invalidLength.flatbuffer") ∧
    (GoError.wrap (.ErrInvalidArgument "obj") "invalidLength.flatbuffer").Cause
      ≠ .ErrInvalidArgument "length" := by
  decide

/-- C2 (amended): for every envelope with a known Type whose Obj
base64-decodes to fewer than 4 bytes (the empty payload included),
`decodeHTTPRequest` fails with the validation error
`ErrInvalidArgument{InvalidParam: "obj"}`, wrapped with the message
`MsgErrInvalidLength + "." + Flatbuffer`. -/
theorem decodeHTTPRequest_short_payload (internal : Messages) (ctx : Context) (r : HTTPRequest)
    (kr : KeycloakRequest) (b : List Nat)
    (hbody : r.Body = .ok kr) (hobj : base64.DecodeString kr.Object = .ok b)
    (htype : kr.«Type» = "Event" ∨ kr.«Type» = "AdminEvent") (hlen : b.length < 4) :
    decodeHTTPRequest internal ctx r
        = .error (.wrap (.ErrInvalidArgument "obj")
            (internal.MsgErrInvalidLength ++ "." ++ internal.Flatbuffer))
      ∧ (GoError.wrap (.ErrInvalidArgument "obj")
            (internal.MsgErrInvalidLength ++ "." ++ internal.Flatbuffer)).Cause
        = .ErrInvalidArgument "obj" := by
  exact ⟨decodeHTTPRequest_of_short internal ctx r kr b hbody hobj htype hlen, rfl⟩

/-- Witness of C2 (amended): the theorem applied at a concrete input. -/
theorem decodeHTTPRequest_short_payload_witness :
    decodeHTTPRequest sampleMessages [] ⟨[], .ok ⟨"AdminEvent", ""⟩⟩
        = .error (.wrap (.ErrInvalidArgument "obj")
            (sampleMessages.MsgErrInvalidLength ++ "." ++ sampleMessages.Flatbuffer))
      ∧ (GoError.wrap (.ErrInvalidArgument "obj")
            (sampleMessages.MsgErrInvalidLength ++ "." ++ sampleMessages.Flatbuffer)).Cause
        = .ErrInvalidArgument "obj" :=
  decodeHTTPRequest_short_payload sampleMessages [] ⟨[], .ok ⟨"AdminEvent", ""⟩⟩
    ⟨"AdminEvent", ""⟩ [] rfl (by decide) (Or.inr rfl) (by decide)

/-- C3, as stated, fails: for the envelope with Type "Event" and Obj "!!!!"
the error of `decodeHTTPRequest` has a `CorruptInputError` as its cause, which
is not an `ErrInvalidArgument`, and `errorHandler` answers 500, not 400. -/
theorem decodeHTTPRequest_bad_base64_counterexample :
    decodeHTTPRequest sampleMessages [] ⟨[], .ok ⟨"Event", "!!!!"⟩⟩
      = .error (.wrap (.CorruptInputError 0) "invalidBase64Object") ∧
    (GoError.wrap (.CorruptInputError 0) "invalidBase64Object").Cause.isErrInvalidArgument = false ∧
    (errorHandler [] (.wrap (.CorruptInputError 0) "invalidBase64Object") {}).1.status
      = some 500 := by
  decide

/-- C3 (amended): for every envelope whose Obj is not valid standard base64,
`decodeHTTPRequest` fails with the error of the base64 decoder wrapped with
`MsgErrInvalidBase64Object`; its cause is a `CorruptInputError`, not an
`ErrInvalidArgument`, so that the ingestion error handler answers
500 Internal Server Error on a fresh response. -/
theorem decodeHTTPRequest_bad_base64 (internal : Messages) (ctx : Context) (r : HTTPRequest)
    (kr : KeycloakRequest) (e : GoError) (w : http.ResponseWriter)
    (hbody : r.Body = .ok kr) (hobj : base64.DecodeString kr.Object = .error e)
    (hw : w.status = none) :
    decodeHTTPRequest internal ctx r = .error (.wrap e internal.MsgErrInvalidBase64Object)
      ∧ (GoError.wrap e internal.MsgErrInvalidBase64Object).Cause.isErrInvalidArgument = false
      ∧ (errorHandler ctx (.wrap e internal.MsgErrInvalidBase64Object) w).1.status
          = some http.StatusInternalServerError := by
  obtain ⟨n, rfl⟩ := base64_DecodeString_error _ _ hobj
  refine ⟨?_, rfl, ?_⟩
  · simp [decodeHTTPRequest, hbody, hobj]
  · simp [errorHandler, GoError.Cause, http.ResponseWriter.Write,
      http.ResponseWriter.WriteHeader, checkWriteHeaderCode_constants,
      http.ResponseWriter.SetHeader, hw]

/-- Witness of C3 (amended): the theorem applied at a concrete input. -/
theorem decodeHTTPRequest_bad_base64_witness :
    decodeHTTPRequest sampleMessages [] ⟨[], .ok ⟨"AdminEvent", "YWI"⟩⟩
        = .error (.wrap (.CorruptInputError 0) sampleMessages.MsgErrInvalidBase64Object)
      ∧ (GoError.wrap (.CorruptInputError 0)
          sampleMessages.MsgErrInvalidBase64Object).Cause.isErrInvalidArgument = false
      ∧ (errorHandler [] (.wrap (.CorruptInputError 0)
          sampleMessages.MsgErrInvalidBase64Object) {}).1.status
          = some http.StatusInternalServerError :=
  decodeHTTPRequest_bad_base64 sampleMessages [] ⟨[], .ok ⟨"AdminEvent", "YWI"⟩⟩
    ⟨"AdminEvent", "YWI"⟩ (.CorruptInputError 0) {} rfl (by decide) rfl

/-- C4: for every envelope with Type "Event" or "AdminEvent" whose Obj is
valid base64 decoding to at least 4 bytes, `decodeHTTPRequest` succeeds and
returns the Request with the envelope's Type and exactly the decoded bytes. -/
theorem decodeHTTPRequest_accepts (internal : Messages) (ctx : Context) (r : HTTPRequest)
    (kr : KeycloakRequest) (b : List Nat)
    (hbody : r.Body = .ok kr) (hobj : base64.DecodeString kr.Object = .ok b)
    (htype : kr.«Type» = "Event" ∨ kr.«Type» = "AdminEvent") (hlen : 4 ≤ b.length) :
    decodeHTTPRequest internal ctx r = .ok { «Type» := kr.«Type», Object := b } :=
  decodeHTTPRequest_of_long internal ctx r kr b hbody hobj htype hlen

/-- Witness of C4: the theorem applied at a concrete input. -/
theorem decodeHTTPRequest_accepts_witness :
    decodeHTTPRequest sampleMessages [] ⟨[], .ok ⟨"Event", "YWJjZA=="⟩⟩
      = .ok { «Type» := "Event", Object := [97, 98, 99, 100] } :=
  decodeHTTPRequest_accepts sampleMessages [] ⟨[], .ok ⟨"Event", "YWJjZA=="⟩⟩
    ⟨"Event", "YWJjZA=="⟩ [97, 98, 99, 100] rfl (by decide) (Or.inl rfl) (by decide)

/-! ### Ingestion handler -/

/-- C5: for every HTTP request that `decodeHTTPRequest` rejects, the handler
built by `MakeHTTPEventHandler` never invokes the endpoint: there is no
endpoint call, the state behind the endpoint (dispatcher and sinks) is
unchanged, and the only effect is the error response written, and logged, by
`errorHandler`. -/
theorem MakeHTTPEventHandler_rejected_never_calls_endpoint {ρ σ : Type} (internal : Messages)
    (e : Context → Request → σ → Except GoError ρ × σ) (ctx : Context)
    (w : http.ResponseWriter) (r : HTTPRequest) (st : σ) (err : GoError)
    (hrej : decodeHTTPRequest internal (fetchHTTPCorrelationID ctx r) r = .error err) :
    ((MakeHTTPEventHandler internal e).ServeHTTP ctx w r st).calls = []
      ∧ ((MakeHTTPEventHandler internal e).ServeHTTP ctx w r st).state = st
      ∧ ((MakeHTTPEventHandler internal e).ServeHTTP ctx w r st).w
          = (errorHandler (fetchHTTPCorrelationID ctx r) err w).1
      ∧ ((MakeHTTPEventHandler internal e).ServeHTTP ctx w r st).log
          = [(errorHandler (fetchHTTPCorrelationID ctx r) err w).2] := by
  simp [Server.ServeHTTP, MakeHTTPEventHandler, hrej]

/-- Witness of C5: the theorem applied at a concrete input. -/
theorem MakeHTTPEventHandler_rejected_never_calls_endpoint_witness :
    ((MakeHTTPEventHandler sampleMessages countingEndpoint).ServeHTTP []
        {} ⟨[], .ok ⟨"Foo", "YWJjZA=="⟩⟩ 0).calls = []
      ∧ ((MakeHTTPEventHandler sampleMessages countingEndpoint).ServeHTTP []
        {} ⟨[], .ok ⟨"Foo", "YWJjZA=="⟩⟩ 0).state = 0
      ∧ ((MakeHTTPEventHandler sampleMessages countingEndpoint).ServeHTTP []
        {} ⟨[], .ok ⟨"Foo", "YWJjZA=="⟩⟩ 0).w
          = (errorHandler (fetchHTTPCorrelationID [] ⟨[], .ok ⟨"Foo", "YWJjZA=="⟩⟩)
              (.wrap (.ErrInvalidArgument "type") "invalidBase64Object") {}).1
      ∧ ((MakeHTTPEventHandler sampleMessages countingEndpoint).ServeHTTP []
        {} ⟨[], .ok ⟨"Foo", "YWJjZA=="⟩⟩ 0).log
          = [(errorHandler (fetchHTTPCorrelationID [] ⟨[], .ok ⟨"Foo", "YWJjZA=="⟩⟩)
              (.wrap (.ErrInvalidArgument "type") "invalidBase64Object") {}).2] :=
  MakeHTTPEventHandler_rejected_never_calls_endpoint sampleMessages countingEndpoint []
    {} ⟨[], .ok ⟨"Foo", "YWJjZA=="⟩⟩ 0
    (.wrap (.ErrInvalidArgument "type") "invalidBase64Object") (by decide)

/-- C6: for every ingestion request with a known Type, served on a fresh
response: if Obj is the base64 of fewer than 4 bytes the handler responds
400; if Obj is the base64 of 4 or more bytes and the endpoint returns without
error, the handler responds 200 with an empty body, whatever value the
endpoint returned. -/
theorem MakeHTTPEventHandler_status {ρ σ : Type} (internal : Messages)
    (e : Context → Request → σ → Except GoError ρ × σ) (ctx : Context)
    (w : http.ResponseWriter) (r : HTTPRequest) (st : σ) (kr : KeycloakRequest) (b : List Nat)
    (hbody : r.Body = .ok kr) (hobj : base64.DecodeString kr.Object = .ok b)
    (htype : kr.«Type» = "Event" ∨ kr.«Type» = "AdminEvent")
    (hstatus : w.status = none) (hempty : w.body = []) :
    (b.length < 4 →
        ((MakeHTTPEventHandler internal e).ServeHTTP ctx w r st).w.status
          = some http.StatusBadRequest)
      ∧ (4 ≤ b.length → ∀ (response : ρ) (st1 : σ),
          e (fetchHTTPCorrelationID ctx r) { «Type» := kr.«Type», Object := b } st
            = (.ok response, st1) →
          ((MakeHTTPEventHandler internal e).ServeHTTP ctx w r st).w.status
              = some http.StatusOK
            ∧ ((MakeHTTPEventHandler internal e).ServeHTTP ctx w r st).w.body = []) := by
  constructor
  · intro hlen
    have hdec := decodeHTTPRequest_of_short internal (fetchHTTPCorrelationID ctx r) r kr b
      hbody hobj htype hlen
    simp [Server.ServeHTTP, MakeHTTPEventHandler, hdec, errorHandler, GoError.Cause,
      http.ResponseWriter.Write, http.ResponseWriter.WriteHeader, checkWriteHeaderCode_constants,
      http.ResponseWriter.SetHeader,
      hstatus]
  · intro hlen response st1 he
    have hdec := decodeHTTPRequest_of_long internal (fetchHTTPCorrelationID ctx r) r kr b
      hbody hobj htype hlen
    simp [Server.ServeHTTP, MakeHTTPEventHandler, hdec, he, encodeHTTPReply,
      http.ResponseWriter.WriteHeader, checkWriteHeaderCode_constants, hstatus, hempty]

/-- Witness of C6: the theorem applied at a concrete input. -/
theorem MakeHTTPEventHandler_status_witness :
    ((MakeHTTPEventHandler sampleMessages countingEndpoint).ServeHTTP []
        {} ⟨[], .ok ⟨"Event", "YWI="⟩⟩ 0).w.status = some http.StatusBadRequest
      ∧ ((MakeHTTPEventHandler sampleMessages countingEndpoint).ServeHTTP []
        {} ⟨[], .ok ⟨"AdminEvent", "YWJjZA=="⟩⟩ 0).w.status = some http.StatusOK
      ∧ ((MakeHTTPEventHandler sampleMessages countingEndpoint).ServeHTTP []
        {} ⟨[], .ok ⟨"AdminEvent", "YWJjZA=="⟩⟩ 0).w.body = [] :=
  ⟨(MakeHTTPEventHandler_status sampleMessages countingEndpoint [] {}
      ⟨[], .ok ⟨"Event", "YWI="⟩⟩ 0 ⟨"Event", "YWI="⟩ [97, 98] rfl (by decide) (Or.inl rfl)
      rfl rfl).1 (by decide),
   (MakeHTTPEventHandler_status sampleMessages countingEndpoint [] {}
      ⟨[], .ok ⟨"AdminEvent", "YWJjZA=="⟩⟩ 0 ⟨"AdminEvent", "YWJjZA=="⟩ [97, 98, 99, 100] rfl
      (by decide) (Or.inr rfl) rfl rfl).2 (by decide) () 1 rfl⟩

/-! ### Event dispatcher -/

theorem invokeAll_calls {σ : Type} (ctx : Context) (payload : List Nat) (sinks : List (Sink σ)) :
    ∀ st : σ, (invokeAll ctx payload sinks st).1
      = sinks.map (fun s => (⟨s.name, ctx, payload⟩ : SinkCall)) := by
  induction sinks with
  | nil => intro st; rfl
  | cons s rest ih => intro st; simp [invokeAll, ih]

theorem invokeAll_state {σ : Type} (ctx : Context) (payload : List Nat)
    (sinks : List (Sink σ)) :
    ∀ st : σ, (invokeAll ctx payload sinks st).2
      = sinks.foldl (fun acc s => (s.handle ctx payload acc).2) st := by
  induction sinks with
  | nil => intro st; rfl
  | cons s rest ih => intro st; simp [invokeAll, ih]

/-- C7: for any accepted envelope, every sink registered for its category is
invoked exactly once, in the order of the list, with the same context and
payload, whatever the sinks return (an error included): the state the
dispatcher leaves behind is the state after running the handler of each sink
once, each on the state left by the one before it, and the recorded calls are
one per sink; Dispatch reports no failure to its caller. With the registry
wired in `main` these are the console, statistics and audit store sinks, in
that order. -/
theorem Dispatch_invokes_every_sink_once {σ : Type}
    (registry : String → Option (List (Sink σ))) (sinks : List (Sink σ))
    (consolePrint statisticStats eventsDBStore : Context → List Nat → σ → Option GoError × σ)
    (ctx : Context) (req : Request) (st : σ)
    (htype : req.«Type» = "Event" ∨ req.«Type» = "AdminEvent")
    (hreg : registry req.«Type» = some sinks) :
    ((Dispatch registry ctx req st).calls
        = sinks.map (fun s => (⟨s.name, ctx, req.Object⟩ : SinkCall))
      ∧ (Dispatch registry ctx req st).state
        = sinks.foldl (fun acc s => (s.handle ctx req.Object acc).2) st
      ∧ (Dispatch registry ctx req st).err = none)
    ∧ ((Dispatch (mainRegistry consolePrint statisticStats eventsDBStore) ctx req st).calls
        = [⟨"consoleModule.Print", ctx, req.Object⟩, ⟨"statisticModule.Stats", ctx, req.Object⟩,
           ⟨"eventsDBModule.Store", ctx, req.Object⟩]
      ∧ (Dispatch (mainRegistry consolePrint statisticStats eventsDBStore) ctx req st).state
        = (eventsDBStore ctx req.Object
            (statisticStats ctx req.Object (consolePrint ctx req.Object st).2).2).2
      ∧ (Dispatch (mainRegistry consolePrint statisticStats eventsDBStore) ctx req st).err
        = none) := by
  refine ⟨?_, ?_⟩
  · simp [Dispatch, hreg, invokeAll_calls, invokeAll_state]
  · rcases htype with h | h <;>
      simp [Dispatch, mainRegistry, h, invokeAll_calls, invokeAll_state, fns]

/-- Witness of C7: the theorem applied at a concrete input. Every sink counts
its invocations in the state: three sinks, two of which fail, leave the
count 3. -/
theorem Dispatch_invokes_every_sink_once_witness :
    ((Dispatch (mainRegistry failingSink failingSink countingSink) [("k", "v")]
          ⟨"Event", [1, 2, 3, 4]⟩ 0).calls
        = (fns failingSink failingSink countingSink).map
            (fun s => (⟨s.name, [("k", "v")], [1, 2, 3, 4]⟩ : SinkCall))
      ∧ (Dispatch (mainRegistry failingSink failingSink countingSink) [("k", "v")]
          ⟨"Event", [1, 2, 3, 4]⟩ 0).state = 3
      ∧ (Dispatch (mainRegistry failingSink failingSink countingSink) [("k", "v")]
          ⟨"Event", [1, 2, 3, 4]⟩ 0).err = none)
    ∧ ((Dispatch (mainRegistry failingSink countingSink countingSink) [("k", "v")]
          ⟨"Event", [1, 2, 3, 4]⟩ 0).calls
        = [⟨"consoleModule.Print", [("k", "v")], [1, 2, 3, 4]⟩,
           ⟨"statisticModule.Stats", [("k", "v")], [1, 2, 3, 4]⟩,
           ⟨"eventsDBModule.Store", [("k", "v")], [1, 2, 3, 4]⟩]
      ∧ (Dispatch (mainRegistry failingSink countingSink countingSink) [("k", "v")]
          ⟨"Event", [1, 2, 3, 4]⟩ 0).state = 3
      ∧ (Dispatch (mainRegistry failingSink countingSink countingSink) [("k", "v")]
          ⟨"Event", [1, 2, 3, 4]⟩ 0).err = none) :=
  Dispatch_invokes_every_sink_once (mainRegistry failingSink failingSink countingSink)
    (fns failingSink failingSink countingSink) failingSink countingSink countingSink
    [("k", "v")] ⟨"Event", [1, 2, 3, 4]⟩ 0 (Or.inl rfl) rfl

/-! ### Audit trail of the management operations -/

theorem Attributes_get_filter (m : kc.Attributes) (k key : String) (h : (key == k) = false) :
    List.lookup key (m.filter (fun kv => kv.1 != k)) = List.lookup key m := by
  induction m with
  | nil => rfl
  | cons kv rest ih =>
    obtain ⟨k1, v1⟩ := kv
    by_cases hk : k1 = k
    · subst hk
      simp [List.filter, List.lookup, h, ih]
    · have hne : (k1 != k) = true := by simpa using hk
      simp only [List.filter, hne, List.lookup, ih]

theorem Attributes_get_set (m : kc.Attributes) (k key : String) (v : List String) :
    List.lookup key (kc.Attributes.set m k v) = if key = k then some v else List.lookup key m := by
  by_cases h : key = k
  · subst h
    simp [kc.Attributes.set, List.lookup]
  · have hb : (key == k) = false := by simpa using h
    simp [kc.Attributes.set, List.lookup, hb, h, Attributes_get_filter]

theorem Attributes_get_setAttr (m : kc.Attributes) (k key : String) (v : Option String) :
    List.lookup key (api.setAttr m k v)
      = match v with
        | some x => if key = k then some [x] else List.lookup key m
        | none => List.lookup key m := by
  cases v with
  | none => rfl
  | some x => simp [api.setAttr, Attributes_get_set]

theorem mergeAttributes_get (old : Option kc.Attributes) (new : kc.Attributes) (key : String) :
    List.lookup key (mergeAttributes old (some new))
      = match List.lookup key new with
        | some v => some v
        | none => List.lookup key (old.getD []) := by
  induction new with
  | nil => rfl
  | cons kv rest ih =>
    obtain ⟨k1, v1⟩ := kv
    have hstep : mergeAttributes old (some ((k1, v1) :: rest))
        = kc.Attributes.set (mergeAttributes old (some rest)) k1 v1 := rfl
    rw [hstep, Attributes_get_set]
    by_cases h : key = k1
    · subst h
      simp [List.lookup]
    · have hb : (key == k1) = false := by simpa using h
      simp only [h, if_false, ih, List.lookup, hb]

theorem forceUnverified_fields (old : kc.UserRepresentation) (user : api.UserRepresentation) :
    (forceUnverified old user).Email = user.Email
      ∧ (forceUnverified old user).PhoneNumber = user.PhoneNumber
      ∧ (contactChanged old.Email user.Email = true →
          (forceUnverified old user).EmailVerified = some false)
      ∧ (contactChanged (storedPhoneNumber old) user.PhoneNumber = true →
          (forceUnverified old user).PhoneNumberVerified = some false) := by
  unfold forceUnverified
  by_cases h1 : contactChanged old.Email user.Email = true <;>
    by_cases h2 : contactChanged (storedPhoneNumber old) user.PhoneNumber = true <;>
    simp [h1, h2]

theorem ConvertToKCUser_phone (u : api.UserRepresentation) (p : String)
    (hp : u.PhoneNumber = some p) (hv : u.PhoneNumberVerified = some false) :
    ∃ a, (api.ConvertToKCUser u).Attributes = some a
      ∧ List.lookup "phoneNumberVerified" a = some ["false"]
      ∧ List.lookup "phoneNumber" a = some [p] := by
  have key : ∀ a6 : kc.Attributes,
      a6 = api.setAttr (api.setAttr (api.setAttr (api.setAttr (api.setAttr (api.setAttr []
        "phoneNumber" u.PhoneNumber) "label" u.Label) "gender" u.Gender) "birthDate" u.BirthDate)
        "phoneNumberVerified" (u.PhoneNumberVerified.map api.FormatBool)) "locale" u.Locale →
      a6.length > 0 ∧ List.lookup "phoneNumberVerified" a6 = some ["false"]
        ∧ List.lookup "phoneNumber" a6 = some [p] := by
    intro a6 h6
    have hlen : a6.length > 0 := by
      subst h6
      rw [hv]
      cases u.Locale <;> simp [api.setAttr, kc.Attributes.set]
    refine ⟨hlen, ?_, ?_⟩
    · subst h6
      rw [Attributes_get_setAttr, hv]
      cases u.Locale <;> simp [Attributes_get_setAttr, api.FormatBool]
    · subst h6
      rw [hp]
      cases u.Locale <;> cases u.PhoneNumberVerified <;> cases u.BirthDate <;>
        cases u.Gender <;> cases u.Label <;>
        simp [Attributes_get_setAttr]
  obtain ⟨hlen, h1, h2⟩ := key _ rfl
  refine ⟨_, ?_, h1, h2⟩
  simp only [api.ConvertToKCUser]
  rw [if_pos hlen]

/-- C10: for every UpdateUser call that reads the stored user, the
representation written back to the identity provider is
`updatedRepresentation`; when the requested email differs from the stored
email it carries the requested email with `emailVerified=false`, and when the
requested phone number differs from the stored one it carries the requested
number with `phoneNumberVerified` "false", even when the request asks for the
flag to be true. -/
theorem UpdateUser_changed_contact_is_unverified (c : component) (ctx : Context)
    (realmName userID : String) (user : api.UserRepresentation)
    (oldUserKc : kc.UserRepresentation)
    (hget : c.keycloakClient.GetUser (ctxString ctx cs.CtContextAccessToken) realmName userID
      = .ok oldUserKc) :
    (c.UpdateUser ctx realmName userID user).written = [updatedRepresentation oldUserKc user]
    ∧ (∀ stored requested : String, oldUserKc.Email = some stored →
        user.Email = some requested → stored ≠ requested →
        (updatedRepresentation oldUserKc user).Email = some requested
          ∧ (updatedRepresentation oldUserKc user).EmailVerified = some false)
    ∧ (∀ stored requested : String, storedPhoneNumber oldUserKc = some stored →
        user.PhoneNumber = some requested → stored ≠ requested →
        ∃ attributes, (updatedRepresentation oldUserKc user).Attributes = some attributes
          ∧ List.lookup "phoneNumber" attributes = some [requested]
          ∧ List.lookup "phoneNumberVerified" attributes = some ["false"]) := by
  obtain ⟨hE, hP, hEV, hPV⟩ := forceUnverified_fields oldUserKc user
  refine ⟨?_, ?_, ?_⟩
  · simp only [component.UpdateUser, hget]
    split
    · rfl
    · split <;> rfl
  · intro stored requested hs hr hne
    have hch : contactChanged oldUserKc.Email user.Email = true := by
      simp [contactChanged, hs, hr, hne]
    refine ⟨?_, ?_⟩
    · show (forceUnverified oldUserKc user).Email = some requested
      rw [hE, hr]
    · exact hEV hch
  · intro stored requested hs hr hne
    have hch : contactChanged (storedPhoneNumber oldUserKc) user.PhoneNumber = true := by
      simp [contactChanged, hs, hr, hne]
    obtain ⟨a, ha, hv, hp⟩ :=
      ConvertToKCUser_phone (forceUnverified oldUserKc user) requested (hP.trans hr) (hPV hch)
    refine ⟨mergeAttributes oldUserKc.Attributes (some a), ?_, ?_, ?_⟩
    · simp only [updatedRepresentation, ha]
    · rw [mergeAttributes_get, hp]
    · rw [mergeAttributes_get, hv]

/-- Witness of C10: the theorem applied at a concrete input. -/
theorem UpdateUser_changed_contact_is_unverified_witness :
    ((updatedRepresentation { Email := some "toti@elca.ch", EmailVerified := some true }
        { Email := some "toto@elca.ch", EmailVerified := some true }).Email
        = some "toto@elca.ch"
      ∧ (updatedRepresentation { Email := some "toti@elca.ch", EmailVerified := some true }
        { Email := some "toto@elca.ch", EmailVerified := some true }).EmailVerified
        = some false)
    ∧ ∃ attributes,
        (updatedRepresentation
          { Attributes := some [("phoneNumber", ["+41789467"]), ("phoneNumberVerified", ["true"])] }
          { PhoneNumber := some "+41789456", PhoneNumberVerified := some true }).Attributes
          = some attributes
        ∧ List.lookup "phoneNumber" attributes = some ["+41789456"]
        ∧ List.lookup "phoneNumberVerified" attributes = some ["false"] :=
  ⟨(UpdateUser_changed_contact_is_unverified
      (sampleComponent
        (sampleClient { Email := some "toti@elca.ch", EmailVerified := some true } "" [])
        succeedingReportEvent)
      sampleContext "master" "41dbf4a8"
      { Email := some "toto@elca.ch", EmailVerified := some true }
      { Email := some "toti@elca.ch", EmailVerified := some true } rfl).2.1
      "toti@elca.ch" "toto@elca.ch" rfl rfl (by decide),
   (UpdateUser_changed_contact_is_unverified
      (sampleComponent
        (sampleClient
          { Attributes := some [("phoneNumber", ["+41789467"]), ("phoneNumberVerified", ["true"])] }
          "" [])
        succeedingReportEvent)
      sampleContext "master" "41dbf4a8"
      { PhoneNumber := some "+41789456", PhoneNumberVerified := some true }
      { Attributes := some [("phoneNumber", ["+41789467"]), ("phoneNumberVerified", ["true"])] }
      rfl).2.2 "+41789467" "+41789456" rfl rfl (by decide)⟩

/-! ### Management error handler -/

theorem managementErrorHandler_of_kcHTTPError (ctx : Context) (err : GoError)
    (w : http.ResponseWriter) (status : Int) (message : String)
    (h : err.Cause = .kcHTTPError status message) :
    managementErrorHandler ctx err w = w.WriteHeader status := by
  simp only [managementErrorHandler, h]

theorem managementErrorHandler_of_ForbiddenError (ctx : Context) (err : GoError)
    (w : http.ResponseWriter) (h : err.Cause = .ForbiddenError) :
    managementErrorHandler ctx err w = w.WriteHeader http.StatusForbidden := by
  simp only [managementErrorHandler, h]

theorem managementErrorHandler_of_HTTPError (ctx : Context) (err : GoError)
    (w : http.ResponseWriter) (status : Int) (message : String)
    (h : err.Cause = .HTTPError status message) :
    managementErrorHandler ctx err w
      = if (w.WriteHeader status).panicked then w.WriteHeader status
        else (w.WriteHeader status).Write (.text message) := by
  simp only [managementErrorHandler, h]

theorem managementErrorHandler_default (ctx : Context) (err : GoError)
    (w : http.ResponseWriter)
    (hkc : ∀ status message, err.Cause ≠ .kcHTTPError status message)
    (hforbidden : err.Cause ≠ .ForbiddenError)
    (hhttp : ∀ status message, err.Cause ≠ .HTTPError status message) :
    managementErrorHandler ctx err w
      = if err = .ErrLimited then w.WriteHeader http.StatusTooManyRequests
        else w.WriteHeader http.StatusInternalServerError := by
  unfold managementErrorHandler
  split
  · rename_i status message heq
    exact absurd heq (hkc status message)
  · rename_i heq
    exact absurd heq hforbidden
  · rename_i status message heq
    exact absurd heq (hhttp status message)
  · rfl

theorem WriteHeader_fresh (w : http.ResponseWriter) (code : Int) (hw : w.status = none)
    (hc : http.checkWriteHeaderCode code = true) :
    (w.WriteHeader code).status = some code ∧ (w.WriteHeader code).body = w.body
      ∧ (w.WriteHeader code).header = w.header
      ∧ (w.WriteHeader code).panicked = w.panicked := by
  simp [http.ResponseWriter.WriteHeader, hw, hc]

theorem WriteHeader_panics (w : http.ResponseWriter) (code : Int) (hw : w.status = none)
    (hc : http.checkWriteHeaderCode code = false) :
    (w.WriteHeader code).status = none ∧ (w.WriteHeader code).body = w.body
      ∧ (w.WriteHeader code).header = w.header
      ∧ (w.WriteHeader code).panicked = true := by
  simp [http.ResponseWriter.WriteHeader, hw, hc]

theorem Write_after_WriteHeader (w : http.ResponseWriter) (code : Int) (b : http.BodyWrite)
    (hw : w.status = none) (hc : http.checkWriteHeaderCode code = true) :
    ((w.WriteHeader code).Write b).status = some code
      ∧ ((w.WriteHeader code).Write b).body = w.body ++ [b]
      ∧ ((w.WriteHeader code).Write b).header = w.header := by
  simp [http.ResponseWriter.Write, http.ResponseWriter.WriteHeader, hw, hc]

theorem checkWriteHeaderCode_of_range (code : Int) (h1 : 100 ≤ code) (h2 : code ≤ 999) :
    http.checkWriteHeaderCode code = true :=
  (checkWriteHeaderCode_iff code).2 ⟨h1, h2⟩

theorem checkWriteHeaderCode_of_not_range (code : Int) (h : ¬ (100 ≤ code ∧ code ≤ 999)) :
    http.checkWriteHeaderCode code = false := by
  cases hc : http.checkWriteHeaderCode code
  · rfl
  · exact absurd ((checkWriteHeaderCode_iff code).1 hc) h

/-- C18, counterexample: a management `HTTPError` with Status 0 and a
`kc_client.HTTPError` with HTTPStatus -1 are not mapped to their own status:
`WriteHeader` panics for a code outside 100..999, and no status is written. -/
theorem managementErrorHandler_invalid_status_counterexample :
    (managementErrorHandler [] (.HTTPError 0 "zero") {}).status ≠ some 0
    ∧ (managementErrorHandler [] (.HTTPError 0 "zero") {}).status = none
    ∧ (managementErrorHandler [] (.HTTPError 0 "zero") {}).panicked = true
    ∧ (managementErrorHandler [] (.kcHTTPError (-1) "negative") {}).status = none
    ∧ (managementErrorHandler [] (.kcHTTPError (-1) "negative") {}).panicked = true := by
  decide

/-- C18 (amended): on a response whose header is not yet written,
managementErrorHandler maps every error by its root cause: a
`kc_client.HTTPError` to its own HTTPStatus and a management `HTTPError` to
its Status when that number is a status code `WriteHeader` accepts
(100..999), a `security.ForbiddenError` to 403, and every other error whose
root cause is not the rate limit error to 500 Internal Server Error. For a
HTTPStatus or Status outside 100..999 `WriteHeader` panics and no status is
written. -/
theorem managementErrorHandler_status_by_cause (ctx : Context) (err : GoError)
    (w : http.ResponseWriter) (hw : w.status = none) :
    (∀ status message, err.Cause = .kcHTTPError status message →
        (100 ≤ status ∧ status ≤ 999 →
          (managementErrorHandler ctx err w).status = some status)
        ∧ (¬ (100 ≤ status ∧ status ≤ 999) →
          (managementErrorHandler ctx err w).status = none
            ∧ (managementErrorHandler ctx err w).panicked = true))
    ∧ (err.Cause = .ForbiddenError →
        (managementErrorHandler ctx err w).status = some http.StatusForbidden)
    ∧ (∀ status message, err.Cause = .HTTPError status message →
        (100 ≤ status ∧ status ≤ 999 →
          (managementErrorHandler ctx err w).status = some status)
        ∧ (¬ (100 ≤ status ∧ status ≤ 999) →
          (managementErrorHandler ctx err w).status = none
            ∧ (managementErrorHandler ctx err w).panicked = true))
    ∧ ((∀ status message, err.Cause ≠ .kcHTTPError status message) →
        err.Cause ≠ .ForbiddenError →
        (∀ status message, err.Cause ≠ .HTTPError status message) →
        err.Cause ≠ .ErrLimited →
        (managementErrorHandler ctx err w).status = some http.StatusInternalServerError) := by
  refine ⟨?_, ?_, ?_, ?_⟩
  · intro status message h
    rw [managementErrorHandler_of_kcHTTPError ctx err w status message h]
    constructor
    · intro hr
      exact (WriteHeader_fresh w status hw (checkWriteHeaderCode_of_range _ hr.1 hr.2)).1
    · intro hr
      obtain ⟨h1, _, _, h4⟩ := WriteHeader_panics w status hw
        (checkWriteHeaderCode_of_not_range _ hr)
      exact ⟨h1, h4⟩
  · intro h
    rw [managementErrorHandler_of_ForbiddenError ctx err w h]
    exact (WriteHeader_fresh w _ hw (by decide)).1
  · intro status message h
    rw [managementErrorHandler_of_HTTPError ctx err w status message h]
    constructor
    · intro hr
      have hc := checkWriteHeaderCode_of_range _ hr.1 hr.2
      split
      · exact (WriteHeader_fresh w status hw hc).1
      · exact (Write_after_WriteHeader w status _ hw hc).1
    · intro hr
      obtain ⟨h1, _, _, h4⟩ := WriteHeader_panics w status hw
        (checkWriteHeaderCode_of_not_range _ hr)
      rw [if_pos h4]
      exact ⟨h1, h4⟩
  · intro hkc hforbidden hhttp hlimited
    rw [managementErrorHandler_default ctx err w hkc hforbidden hhttp]
    have hne : err ≠ .ErrLimited := by
      intro h
      exact hlimited (by rw [h]; rfl)
    rw [if_neg hne]
    exact (WriteHeader_fresh w _ hw (by decide)).1

/-- Witness of C18 (amended): the theorem applied at a concrete input. -/
theorem managementErrorHandler_status_by_cause_witness :
    (managementErrorHandler [] (.wrap (.kcHTTPError 404 "Not found") "create") {}).status
        = some 404
    ∧ (managementErrorHandler [] .ForbiddenError {}).status = some http.StatusForbidden
    ∧ (managementErrorHandler [] (.HTTPError 401 "Unauthorized") {}).status = some 401
    ∧ ((managementErrorHandler [] (.HTTPError 1000 "too large") {}).status = none
        ∧ (managementErrorHandler [] (.HTTPError 1000 "too large") {}).panicked = true)
    ∧ (managementErrorHandler [] (.other "Unexpected Error") {}).status
        = some http.StatusInternalServerError :=
  ⟨((managementErrorHandler_status_by_cause [] (.wrap (.kcHTTPError 404 "Not found") "create")
      {} rfl).1 404 "Not found" rfl).1 (by decide),
   (managementErrorHandler_status_by_cause [] .ForbiddenError {} rfl).2.1 rfl,
   ((managementErrorHandler_status_by_cause [] (.HTTPError 401 "Unauthorized") {} rfl).2.2.1
      401 "Unauthorized" rfl).1 (by decide),
   ((managementErrorHandler_status_by_cause [] (.HTTPError 1000 "too large") {} rfl).2.2.1
      1000 "too large" rfl).2 (by decide),
   (managementErrorHandler_status_by_cause [] (.other "Unexpected Error") {} rfl).2.2.2
      (by intro _ _ h; cases h) (by intro h; cases h) (by intro _ _ h; cases h)
      (by intro h; cases h)⟩

/-- C19, counterexample: the error `errors.Wrap(ratelimit.ErrLimited, "limited")`
has `ratelimit.ErrLimited` as its root cause, yet managementErrorHandler
writes 500 and not 429. -/
theorem managementErrorHandler_wrapped_ErrLimited_counterexample :
    (GoError.wrap .ErrLimited "limited").Cause = .ErrLimited
    ∧ (managementErrorHandler [] (.wrap .ErrLimited "limited") {}).status
        = some http.StatusInternalServerError
    ∧ (managementErrorHandler [] (.wrap .ErrLimited "limited") {}).status
        ≠ some http.StatusTooManyRequests := by
  decide

/-- C19 (amended): on a response whose header is not yet written,
managementErrorHandler writes 429 Too Many Requests exactly for the error
value `ratelimit.ErrLimited` itself among the errors whose root cause it is:
the value as the rate limiter returns it gets 429, and an error that only
wraps it with `errors.Wrap` gets 500, because the default case compares `err`
and not `errors.Cause(err)`. -/
theorem managementErrorHandler_ErrLimited (ctx : Context) (err : GoError)
    (w : http.ResponseWriter) (hw : w.status = none) (hcause : err.Cause = .ErrLimited) :
    (err = .ErrLimited →
        (managementErrorHandler ctx err w).status = some http.StatusTooManyRequests)
    ∧ (err ≠ .ErrLimited →
        (managementErrorHandler ctx err w).status = some http.StatusInternalServerError)
    ∧ (managementErrorHandler ctx err w).body = w.body := by
  have hdef := managementErrorHandler_default ctx err w
    (by intro _ _ h; rw [hcause] at h; cases h) (by intro h; rw [hcause] at h; cases h)
    (by intro _ _ h; rw [hcause] at h; cases h)
  refine ⟨?_, ?_, ?_⟩
  · intro h
    rw [hdef, if_pos h]
    exact (WriteHeader_fresh w _ hw (by decide)).1
  · intro h
    rw [hdef, if_neg h]
    exact (WriteHeader_fresh w _ hw (by decide)).1
  · rw [hdef]
    split
    · exact (WriteHeader_fresh w _ hw (by decide)).2.1
    · exact (WriteHeader_fresh w _ hw (by decide)).2.1

/-- Witness of C19 (amended): the theorem applied at a concrete input. -/
theorem managementErrorHandler_ErrLimited_witness :
    (managementErrorHandler [] .ErrLimited {}).status = some http.StatusTooManyRequests
    ∧ (managementErrorHandler [] (.wrap .ErrLimited "limited") {}).status
        = some http.StatusInternalServerError :=
  ⟨(managementErrorHandler_ErrLimited [] .ErrLimited {} rfl rfl).1 rfl,
   (managementErrorHandler_ErrLimited [] (.wrap .ErrLimited "limited") {} rfl rfl).2.1
      (by decide)⟩

/-- C20, counterexample: for a management `HTTPError` with Status 0 the body
is not its Message: `WriteHeader` panics before `w.Write` and nothing is
written; for a `kc_client.HTTPError` with HTTPStatus 0 the response has no
status either. -/
theorem managementErrorHandler_invalid_status_body_counterexample :
    (managementErrorHandler [] (.HTTPError 0 "zero") {}).body ≠ [.text "zero"]
    ∧ (managementErrorHandler [] (.HTTPError 0 "zero") {}).body = []
    ∧ (managementErrorHandler [] (.kcHTTPError 0 "zero") {}).status = none
    ∧ (managementErrorHandler [] (.kcHTTPError 0 "zero") {}).body = [] := by
  decide

/-- C20 (amended): on a fresh response, managementErrorHandler writes a body
only for a management `HTTPError` whose Status is a status code `WriteHeader`
accepts (100..999), and then the body is exactly its Message, after the status;
when its Status is outside 100..999 `WriteHeader` panics and neither status
nor body is written. For every other error (provider error, forbidden, rate
limit, unexpected) the body stays empty and the header map unchanged, and the
status is written, except for a `kc_client.HTTPError` whose HTTPStatus is
outside 100..999, where `WriteHeader` panics and nothing is written. -/
theorem managementErrorHandler_body (ctx : Context) (err : GoError)
    (w : http.ResponseWriter) (hw : w.status = none) (hbody : w.body = [])
    (hpanicked : w.panicked = false) :
    (∀ status message, err.Cause = .HTTPError status message →
        (100 ≤ status ∧ status ≤ 999 →
          (managementErrorHandler ctx err w).body = [.text message]
            ∧ (managementErrorHandler ctx err w).status = some status)
        ∧ (¬ (100 ≤ status ∧ status ≤ 999) →
          (managementErrorHandler ctx err w).body = []
            ∧ (managementErrorHandler ctx err w).status = none
            ∧ (managementErrorHandler ctx err w).panicked = true))
    ∧ ((∀ status message, err.Cause ≠ .HTTPError status message) →
        (managementErrorHandler ctx err w).body = []
          ∧ (managementErrorHandler ctx err w).header = w.header
          ∧ ((∀ status message, err.Cause = .kcHTTPError status message →
                100 ≤ status ∧ status ≤ 999) →
              (managementErrorHandler ctx err w).status ≠ none)
          ∧ (∀ status message, err.Cause = .kcHTTPError status message →
                ¬ (100 ≤ status ∧ status ≤ 999) →
              (managementErrorHandler ctx err w).status = none
                ∧ (managementErrorHandler ctx err w).panicked = true)) := by
  refine ⟨?_, ?_⟩
  · intro status message h
    rw [managementErrorHandler_of_HTTPError ctx err w status message h]
    constructor
    · intro hr
      have hc := checkWriteHeaderCode_of_range _ hr.1 hr.2
      obtain ⟨_, _, _, h4⟩ := WriteHeader_fresh w status hw hc
      rw [h4, hpanicked]
      obtain ⟨h1, h2, _⟩ := Write_after_WriteHeader w status (.text message) hw hc
      simp [h1, h2, hbody]
    · intro hr
      obtain ⟨h1, h2, _, h4⟩ := WriteHeader_panics w status hw
        (checkWriteHeaderCode_of_not_range _ hr)
      rw [if_pos h4]
      exact ⟨by rw [h2, hbody], h1, h4⟩
  · intro hhttp
    by_cases hkc : ∃ status message, err.Cause = .kcHTTPError status message
    · obtain ⟨status, message, h⟩ := hkc
      rw [managementErrorHandler_of_kcHTTPError ctx err w status message h]
      by_cases hr : 100 ≤ status ∧ status ≤ 999
      · obtain ⟨h1, h2, h3, _⟩ := WriteHeader_fresh w status hw
          (checkWriteHeaderCode_of_range _ hr.1 hr.2)
        refine ⟨by rw [h2, hbody], h3, ?_, ?_⟩
        · intro _
          simp [h1]
        · intro status1 message1 h1 hr1
          rw [h] at h1
          cases h1
          exact absurd hr hr1
      · obtain ⟨h1, h2, h3, h4⟩ := WriteHeader_panics w status hw
          (checkWriteHeaderCode_of_not_range _ hr)
        refine ⟨by rw [h2, hbody], h3, ?_, ?_⟩
        · intro hall
          exact absurd (hall status message h) hr
        · intro _ _ _ _
          exact ⟨h1, h4⟩
    · have hkc1 : ∀ status message, err.Cause ≠ .kcHTTPError status message :=
        fun status message h => hkc ⟨status, message, h⟩
      have hnever : ∀ status message, err.Cause = .kcHTTPError status message →
          ¬ (100 ≤ status ∧ status ≤ 999) →
          (managementErrorHandler ctx err w).status = none
            ∧ (managementErrorHandler ctx err w).panicked = true :=
        fun status message h _ => absurd h (hkc1 status message)
      have hcode : ∃ code, http.checkWriteHeaderCode code = true
          ∧ managementErrorHandler ctx err w = w.WriteHeader code := by
        by_cases hforbidden : err.Cause = .ForbiddenError
        · exact ⟨_, by decide, managementErrorHandler_of_ForbiddenError ctx err w hforbidden⟩
        · rw [managementErrorHandler_default ctx err w hkc1 hforbidden hhttp]
          split
          · exact ⟨_, by decide, rfl⟩
          · exact ⟨_, by decide, rfl⟩
      obtain ⟨code, hc, heq⟩ := hcode
      obtain ⟨h1, h2, h3, _⟩ := WriteHeader_fresh w code hw hc
      refine ⟨?_, ?_, ?_, hnever⟩
      · rw [heq, h2, hbody]
      · rw [heq, h3]
      · intro _
        rw [heq, h1]
        simp

/-- Witness of C20 (amended): the theorem applied at a concrete input. -/
theorem managementErrorHandler_body_witness :
    ((managementErrorHandler [] (.HTTPError 401 "Unauthorized") {}).body
        = [.text "Unauthorized"]
      ∧ (managementErrorHandler [] (.HTTPError 401 "Unauthorized") {}).status = some 401)
    ∧ ((managementErrorHandler [] (.HTTPError 0 "zero") {}).body = []
      ∧ (managementErrorHandler [] (.HTTPError 0 "zero") {}).status = none
      ∧ (managementErrorHandler [] (.HTTPError 0 "zero") {}).panicked = true)
    ∧ (managementErrorHandler [] .ErrLimited {}).body = []
    ∧ (managementErrorHandler [] .ErrLimited {}).header = ({} : http.ResponseWriter).header
    ∧ (managementErrorHandler [] .ErrLimited {}).status ≠ none :=
  ⟨((managementErrorHandler_body [] (.HTTPError 401 "Unauthorized") {} rfl rfl rfl).1
      401 "Unauthorized" rfl).1 (by decide),
   ((managementErrorHandler_body [] (.HTTPError 0 "zero") {} rfl rfl rfl).1
      0 "zero" rfl).2 (by decide),
   ((managementErrorHandler_body [] .ErrLimited {} rfl rfl rfl).2
      (by intro _ _ h; cases h)).1,
   ((managementErrorHandler_body [] .ErrLimited {} rfl rfl rfl).2
      (by intro _ _ h; cases h)).2.1,
   ((managementErrorHandler_body [] .ErrLimited {} rfl rfl rfl).2
      (by intro _ _ h; cases h)).2.2.1 (by intro _ _ h; cases h)⟩

/-! ### Audit events API -/

/-- C13: for every stored row, ToAuditRepresentation copies AuditID and
AuditTime unchanged and maps each of the twelve optional columns to the field
of the same name: the stored string when the column is Valid, the empty
string when it is not, whatever String the invalid column carries. -/
theorem ToAuditRepresentation_fields (dba : events_api.DbAuditRepresentation) :
    dba.ToAuditRepresentation.AuditID = dba.AuditID
    ∧ dba.ToAuditRepresentation.AuditTime = dba.AuditTime
    ∧ dba.ToAuditRepresentation.Origin = (if dba.Origin.Valid then dba.Origin.String else "")
    ∧ dba.ToAuditRepresentation.RealmName
        = (if dba.RealmName.Valid then dba.RealmName.String else "")
    ∧ dba.ToAuditRepresentation.AgentUserID
        = (if dba.AgentUserID.Valid then dba.AgentUserID.String else "")
    ∧ dba.ToAuditRepresentation.AgentUsername
        = (if dba.AgentUsername.Valid then dba.AgentUsername.String else "")
    ∧ dba.ToAuditRepresentation.AgentRealmName
        = (if dba.AgentRealmName.Valid then dba.AgentRealmName.String else "")
    ∧ dba.ToAuditRepresentation.UserID = (if dba.UserID.Valid then dba.UserID.String else "")
    ∧ dba.ToAuditRepresentation.Username
        = (if dba.Username.Valid then dba.Username.String else "")
    ∧ dba.ToAuditRepresentation.CtEventType
        = (if dba.CtEventType.Valid then dba.CtEventType.String else "")
    ∧ dba.ToAuditRepresentation.KcEventType
        = (if dba.KcEventType.Valid then dba.KcEventType.String else "")
    ∧ dba.ToAuditRepresentation.KcOperationType
        = (if dba.KcOperationType.Valid then dba.KcOperationType.String else "")
    ∧ dba.ToAuditRepresentation.ClientID
        = (if dba.ClientID.Valid then dba.ClientID.String else "")
    ∧ dba.ToAuditRepresentation.AdditionalInfo
        = (if dba.AdditionalInfo.Valid then dba.AdditionalInfo.String else "")
    ∧ (∀ residual : String, events_api.toString ⟨residual, false⟩ = "")
    ∧ (∀ stored : String, events_api.toString ⟨stored, true⟩ = stored) :=
  ⟨rfl, rfl, rfl, rfl, rfl, rfl, rfl, rfl, rfl, rfl, rfl, rfl, rfl, rfl,
    fun _ => rfl, fun _ => rfl⟩

/-- C14: ToAuditRepresentation is lossy: two stored rows that differ, one
with the Origin column absent and one with it present and empty, map to the
same AuditRepresentation, so the conversion is not injective. -/
theorem ToAuditRepresentation_not_injective :
    (∃ d1 d2 : events_api.DbAuditRepresentation,
        d1 ≠ d2 ∧ d1.Origin.Valid = false ∧ d2.Origin = ⟨"", true⟩
          ∧ d1.ToAuditRepresentation = d2.ToAuditRepresentation)
    ∧ ¬ Function.Injective events_api.DbAuditRepresentation.ToAuditRepresentation := by
  have hne : events_api.sampleRowAbsent ≠ events_api.sampleRowEmpty := by decide
  have heq : events_api.sampleRowAbsent.ToAuditRepresentation
      = events_api.sampleRowEmpty.ToAuditRepresentation := by decide
  exact ⟨⟨_, _, hne, rfl, rfl, heq⟩, fun hinj => hne (hinj heq)⟩

/-- C15, as stated, fails: an AuditEventsRepresentation whose Events is the
nil slice and whose Count is 0 is encoded with "events": null, not
"events": []. -/
theorem AuditEventsRepresentation_nil_events_counterexample :
    events_api.AuditEventsRepresentation.Marshal ⟨none, 0⟩
        = .object [("events", .null), ("count", .number 0)]
    ∧ (events_api.AuditEventsRepresentation.Marshal ⟨none, 0⟩).member "events" = some .null
    ∧ (events_api.AuditEventsRepresentation.Marshal ⟨none, 0⟩).member "events"
        ≠ some (.array []) := by
  refine ⟨rfl, rfl, ?_⟩
  intro h
  have h' : (some json.Value.null : Option json.Value) = some (.array []) := h
  cases h'

/-- C15 (amended): the JSON wire form of an AuditEventsRepresentation whose
Events is an empty, non-nil slice and whose Count is 0 is the object with
"events": [] and "count": 0; for every AuditEventsRepresentation the events
member is present, and it is null exactly when Events is the nil slice. -/
theorem AuditEventsRepresentation_wire_form (r : events_api.AuditEventsRepresentation) :
    (r.Events = some [] → r.Count = 0 →
        r.Marshal = .object [("events", .array []), ("count", .number 0)])
    ∧ (∃ v, r.Marshal.member "events" = some v)
    ∧ (r.Marshal.member "events" = some .null ↔ r.Events = none)
    ∧ r.Marshal.member "count" = some (.number r.Count) := by
  obtain ⟨events, count⟩ := r
  refine ⟨?_, ?_, ?_, ?_⟩
  · intro h1 h2
    simp only at h1 h2
    subst h1 h2
    rfl
  · cases events <;> exact ⟨_, rfl⟩
  · cases events with
    | none => exact ⟨fun _ => rfl, fun _ => rfl⟩
    | some l =>
      constructor
      · intro h
        have h' : (some (json.Value.array (l.map events_api.AuditRepresentation.Marshal))
            : Option json.Value) = some .null := h
        cases h'
      · intro h
        cases h
  · rfl

/-- Witness of C15 (amended): the theorem applied at a concrete input. -/
theorem AuditEventsRepresentation_wire_form_witness :
    events_api.AuditEventsRepresentation.Marshal ⟨some [], 0⟩
      = .object [("events", .array []), ("count", .number 0)] :=
  (AuditEventsRepresentation_wire_form ⟨some [], 0⟩).1 rfl rfl

/-! ### Events query parameters -/

theorem requestParameters_congr (known : List (String × String)) (q1 q2 : url.Values)
    (h : ∀ p ∈ known, url.Values.Get q1 p.1 = url.Values.Get q2 p.1) :
    requestParameters known q1 = requestParameters known q2 := by
  induction known with
  | nil => rfl
  | cons p rest ih =>
    have hp := h p (List.mem_cons_self _ _)
    have hrest := ih (fun q hq => h q (List.mem_cons_of_mem _ hq))
    simp only [requestParameters, List.filterMap_cons] at hrest ⊢
    rw [hp, hrest]

theorem Values_Get_realmTarget_query (name : String) (h : name ≠ "unused") :
    url.Values.Get [("realmTarget", "master"), ("unused", "value")] name
      = if name = "realmTarget" then "master" else "" := by
  have h2 : (name == "unused") = false := by simpa using h
  by_cases hr : name = "realmTarget"
  · subst hr
    rfl
  · have h1 : (name == "realmTarget") = false := by simpa using hr
    simp [url.Values.Get, List.lookup, h1, h2, hr]

theorem requestParameters_realmTarget (known : List (String × String))
    (hunused : ∀ p ∈ known, p.1 ≠ "unused") :
    requestParameters known [("realmTarget", "master"), ("unused", "value")]
      = (known.filter (fun p => p.1 == "realmTarget")).map (fun p => (p.2, "master")) := by
  induction known with
  | nil => rfl
  | cons p rest ih =>
    have hrest := ih (fun q hq => hunused q (List.mem_cons_of_mem _ hq))
    have hg := Values_Get_realmTarget_query p.1 (hunused p (List.mem_cons_self _ _))
    unfold requestParameters at hrest ⊢
    by_cases hr : p.1 = "realmTarget"
    · rw [if_pos hr] at hg
      have hb : (p.1 == "realmTarget") = true := by simpa using hr
      rw [List.filterMap_cons_some (b := (p.2, "master")) (by simp only [hg]; rfl), hrest]
      simp only [List.filter, hb, List.map_cons]
    · rw [if_neg hr] at hg
      have hb : (p.1 == "realmTarget") = false := by simpa using hr
      rw [List.filterMap_cons_none (by simp only [hg]; rfl), hrest]
      simp only [List.filter, hb]

/-- C16: the parameter map handed to the events component contains only keys
of known parameters, each with the non-empty first value of that parameter in
the query; two queries that agree on the known parameters give the same map,
so parameters with other names are ignored; and
`/events?realmTarget=master&unused=value` reaches GetEvents as exactly
{"realm": "master"}. -/
theorem requestParameters_ignores_unknown (known : List (String × String))
    (query : url.Values) :
    (∀ key value, (key, value) ∈ requestParameters known query →
        ∃ name, (name, key) ∈ known ∧ url.Values.Get query name = value ∧ value ≠ "")
    ∧ (∀ other : url.Values,
        (∀ p ∈ known, url.Values.Get other p.1 = url.Values.Get query p.1) →
        requestParameters known other = requestParameters known query)
    ∧ (known.filter (fun p => p.1 == "realmTarget") = [("realmTarget", "realm")] →
        (∀ p ∈ known, p.1 ≠ "unused") →
        requestParameters known [("realmTarget", "master"), ("unused", "value")]
          = [("realm", "master")]) := by
  refine ⟨?_, ?_, ?_⟩
  · intro key value hmem
    simp only [requestParameters, List.mem_filterMap] at hmem
    obtain ⟨p, hp, hsome⟩ := hmem
    by_cases hv : url.Values.Get query p.1 = ""
    · simp [hv] at hsome
    · have hb : (url.Values.Get query p.1 != "") = true := by simpa using hv
      rw [if_pos hb] at hsome
      have hpair : (p.2, url.Values.Get query p.1) = (key, value) := Option.some.inj hsome
      have hk : p.2 = key := congrArg Prod.fst hpair
      have hval : url.Values.Get query p.1 = value := congrArg Prod.snd hpair
      refine ⟨p.1, ?_, hval, ?_⟩
      · rw [← hk]
        exact hp
      · rw [← hval]
        exact hv
  · intro other h
    exact requestParameters_congr known other query h
  · intro hfilter hunused
    rw [requestParameters_realmTarget known hunused, hfilter]
    rfl

/-- Witness of C16: the theorem applied at a concrete input. -/
theorem requestParameters_ignores_unknown_witness :
    requestParameters sampleKnownParameters [("realmTarget", "master"), ("unused", "value")]
      = [("realm", "master")] :=
  (requestParameters_ignores_unknown sampleKnownParameters
      [("realmTarget", "master"), ("unused", "value")]).2.2 (by decide) (by decide)

/-! ### Correlation identifier -/

/-- C17: `req.Header.Get("X-Correlation-ID")` reads the entry the header map
holds under the canonical name `X-Correlation-Id`. For every request whose
X-Correlation-ID header is non-empty, fetchHTTPCorrelationID returns the
context that binds `cs.CtContextCorrelationID` to exactly that header value;
when the header is empty or absent the context is returned unchanged. -/
theorem fetchHTTPCorrelationID_binds_header (ctx : Context) (req : HTTPRequest) :
    http.Header.Get req.Header "X-Correlation-ID"
        = (List.lookup "X-Correlation-Id" req.Header).getD ""
    ∧ (∀ value, List.lookup "X-Correlation-Id" req.Header = some value → value ≠ "" →
        fetchHTTPCorrelationID ctx req = ctx.WithValue cs.CtContextCorrelationID value
          ∧ (fetchHTTPCorrelationID ctx req).Value cs.CtContextCorrelationID = some value)
    ∧ (List.lookup "X-Correlation-Id" req.Header = some "" →
        fetchHTTPCorrelationID ctx req = ctx)
    ∧ (List.lookup "X-Correlation-Id" req.Header = none →
        fetchHTTPCorrelationID ctx req = ctx) := by
  have hget : http.Header.Get req.Header "X-Correlation-ID"
      = (List.lookup "X-Correlation-Id" req.Header).getD "" := by
    simp only [http.Header.Get, CanonicalMIMEHeaderKey_XCorrelationID]
  refine ⟨hget, ?_, ?_, ?_⟩
  · intro value h hne
    have hv : http.Header.Get req.Header "X-Correlation-ID" = value := by
      rw [hget, h]
      rfl
    have hb : (value != "") = true := by simpa using hne
    have heq : fetchHTTPCorrelationID ctx req
        = ctx.WithValue cs.CtContextCorrelationID value := by
      simp only [fetchHTTPCorrelationID, hv, hb, if_true]
    refine ⟨heq, ?_⟩
    rw [heq]
    simp [Context.WithValue, Context.Value, List.lookup]
  · intro h
    have hv : http.Header.Get req.Header "X-Correlation-ID" = "" := by
      rw [hget, h]
      rfl
    simp [fetchHTTPCorrelationID, hv]
  · intro h
    have hv : http.Header.Get req.Header "X-Correlation-ID" = "" := by
      rw [hget, h]
      rfl
    simp [fetchHTTPCorrelationID, hv]

/-- Witness of C17: the theorem applied at a concrete input. -/
theorem fetchHTTPCorrelationID_binds_header_witness :
    (fetchHTTPCorrelationID [("realm", "master")]
        ⟨[("X-Correlation-Id", "abc-123")], .ok ⟨"Event", ""⟩⟩
          = [(cs.CtContextCorrelationID, "abc-123"), ("realm", "master")]
      ∧ (fetchHTTPCorrelationID [("realm", "master")]
        ⟨[("X-Correlation-Id", "abc-123")], .ok ⟨"Event", ""⟩⟩).Value cs.CtContextCorrelationID
          = some "abc-123")
    ∧ fetchHTTPCorrelationID [("realm", "master")] ⟨[("X-Correlation-Id", "")], .ok ⟨"Event", ""⟩⟩
        = [("realm", "master")]
    ∧ fetchHTTPCorrelationID [("realm", "master")] ⟨[], .ok ⟨"Event", ""⟩⟩
        = [("realm", "master")] :=
  ⟨(fetchHTTPCorrelationID_binds_header [("realm", "master")]
      ⟨[("X-Correlation-Id", "abc-123")], .ok ⟨"Event", ""⟩⟩).2.1 "abc-123" rfl (by decide),
   (fetchHTTPCorrelationID_binds_header [("realm", "master")]
      ⟨[("X-Correlation-Id", "")], .ok ⟨"Event", ""⟩⟩).2.2.1 rfl,
   (fetchHTTPCorrelationID_binds_header [("realm", "master")]
      ⟨[], .ok ⟨"Event", ""⟩⟩).2.2.2 rfl⟩

/-! ### Events of the management operations -/

theorem lookup_filter_ne {β : Type} (m : List (String × β)) (k key : String)
    (h : (key == k) = false) :
    List.lookup key (m.filter (fun kv => kv.1 != k)) = List.lookup key m := by
  induction m with
  | nil => rfl
  | cons kv rest ih =>
    obtain ⟨k1, v1⟩ := kv
    by_cases hk : k1 = k
    · subst hk
      simp [List.filter, List.lookup, h, ih]
    · have hne : (k1 != k) = true := by simpa using hk
      simp only [List.filter, hne, List.lookup, ih]

theorem StringMap_lookup_set (m : StringMap) (k key value : String) :
    List.lookup key (StringMap.set m k value)
      = if key = k then some value else List.lookup key m := by
  by_cases h : key = k
  · subst h
    simp [StringMap.set, List.lookup]
  · have hb : (key == k) = false := by simpa using h
    simp [StringMap.set, List.lookup, hb, h, lookup_filter_ne]

theorem StringMap_lookup_foldl_set (f : String → String) (k : String) (keys : List String) :
    ∀ m0 : StringMap,
      List.lookup k (keys.foldl (fun request key => StringMap.set request key (f key)) m0)
        = if k ∈ keys then some (f k) else List.lookup k m0 := by
  induction keys with
  | nil => intro m0; simp
  | cons key rest ih =>
    intro m0
    rw [List.foldl_cons, ih, StringMap_lookup_set]
    by_cases h1 : k ∈ rest
    · simp [h1]
    · by_cases h2 : k = key
      · subst h2
        simp [h1]
      · simp [h1, h2]

theorem StringMap_lookup_foldl_set_nonempty (g : String → String) (k : String)
    (keys : List String) :
    ∀ m0 : StringMap,
      List.lookup k (keys.foldl
          (fun request key => if g key != "" then StringMap.set request key (g key) else request)
          m0)
        = if k ∈ keys ∧ g k ≠ "" then some (g k) else List.lookup k m0 := by
  induction keys with
  | nil => intro m0; simp
  | cons key rest ih =>
    intro m0
    rw [List.foldl_cons, ih]
    by_cases hrest : k ∈ rest ∧ g k ≠ ""
    · have hall : k ∈ key :: rest ∧ g k ≠ "" := ⟨List.mem_cons_of_mem _ hrest.1, hrest.2⟩
      rw [if_pos hrest, if_pos hall]
    · rw [if_neg hrest]
      by_cases hg : g key = ""
      · have hb : ¬ ((g key != "") = true) := by simp [hg]
        rw [if_neg hb]
        have hall : ¬ (k ∈ key :: rest ∧ g k ≠ "") := by
          rintro ⟨hmem, hne⟩
          rcases List.mem_cons.mp hmem with h | h
          · subst h
            exact hne hg
          · exact hrest ⟨h, hne⟩
        rw [if_neg hall]
      · have hb : (g key != "") = true := by simpa using hg
        rw [if_pos hb, StringMap_lookup_set]
        by_cases hk : k = key
        · subst hk
          have hall : k ∈ k :: rest ∧ g k ≠ "" := ⟨List.mem_cons_self _ _, hg⟩
          rw [if_pos rfl, if_pos hall]
        · have hall : ¬ (k ∈ key :: rest ∧ g k ≠ "") := by
            rintro ⟨hmem, hne⟩
            rcases List.mem_cons.mp hmem with h | h
            · exact hk h
            · exact hrest ⟨h, hne⟩
          rw [if_neg hk, if_neg hall]

/-- The content of the map returned by `decodeManagementRequest`, key by key. -/
theorem decodeManagementRequest_lookup (ctx : Context) (req : http.Request) :
    ∃ request, decodeManagementRequest ctx req = .ok request
      ∧ ∀ k, request.get? k
        = if k ∈ queryKeys ∧ url.Values.Get req.Query k ≠ "" then
            some (url.Values.Get req.Query k)
          else if k = "body" then some req.Body
          else if k = "host" then some req.Host
          else if k = "scheme" then some (getScheme req)
          else if k ∈ pathKeys then some (req.Vars.get k)
          else none := by
  refine ⟨_, rfl, ?_⟩
  intro k
  simp only [StringMap.get?]
  rw [StringMap_lookup_foldl_set_nonempty (fun key => url.Values.Get req.Query key) k queryKeys]
  simp only [StringMap_lookup_set]
  rw [StringMap_lookup_foldl_set (fun key => req.Vars.get key) k pathKeys]
  rfl

/-- C23: getScheme returns the X-Forwarded-Proto header value whenever that
header is non-empty, whatever its content and whether or not the request has a
TLS state; otherwise it returns "http" when the request has no TLS state and
"https" when it has one. decodeManagementRequest stores this value under
"scheme" and the Host of the request under "host". -/
theorem getScheme_value (ctx : Context) (req : http.Request) :
    (http.Header.Get req.Header "X-Forwarded-Proto" ≠ "" →
        getScheme req = http.Header.Get req.Header "X-Forwarded-Proto")
    ∧ (http.Header.Get req.Header "X-Forwarded-Proto" = "" → req.TLS = false →
        getScheme req = "http")
    ∧ (http.Header.Get req.Header "X-Forwarded-Proto" = "" → req.TLS = true →
        getScheme req = "https")
    ∧ (∃ request, decodeManagementRequest ctx req = .ok request
        ∧ request.get? "scheme" = some (getScheme req)
        ∧ request.get? "host" = some req.Host) := by
  refine ⟨?_, ?_, ?_, ?_⟩
  · intro h
    have hb : (http.Header.Get req.Header "X-Forwarded-Proto" != "") = true := by simpa using h
    simp only [getScheme, hb, if_true]
  · intro h htls
    simp [getScheme, h, htls]
  · intro h htls
    simp [getScheme, h, htls]
  · obtain ⟨request, hdec, hlookup⟩ := decodeManagementRequest_lookup ctx req
    refine ⟨request, hdec, ?_, ?_⟩
    · rw [hlookup]
      simp [queryKeys]
    · rw [hlookup]
      simp [queryKeys]

/-- Witness of C23: the theorem applied at a concrete input. -/
theorem getScheme_value_witness :
    getScheme ⟨[("X-Forwarded-Proto", "https")], false, "toto.com", "", [], []⟩ = "https"
    ∧ getScheme ⟨[], false, "toto.com", "", [], []⟩ = "http"
    ∧ getScheme ⟨[], true, "toto.com", "", [], []⟩ = "https" :=
  ⟨(getScheme_value [] ⟨[("X-Forwarded-Proto", "https")], false, "toto.com", "", [], []⟩).1
      (by decide),
   (getScheme_value [] ⟨[], false, "toto.com", "", [], []⟩).2.1 rfl rfl,
   (getScheme_value [] ⟨[], true, "toto.com", "", [], []⟩).2.2.1 rfl rfl⟩

/-- C24: for every request, decodeManagementRequest succeeds and returns a map
whose key set is exactly {realm, userID, clientID, roleID, credentialID,
scheme, host, body} plus each of {email, firstName, lastName, max, username,
client_id, redirect_uri, group} whose first query value is non-empty, bound
to that value; every other query parameter is ignored and an empty-valued
whitelisted parameter is omitted. -/
theorem decodeManagementRequest_keys (ctx : Context) (req : http.Request) :
    ∃ request, decodeManagementRequest ctx req = .ok request
      ∧ (∀ k, (request.get? k).isSome = true ↔
          (k ∈ ["realm", "userID", "clientID", "roleID", "credentialID", "scheme", "host", "body"]
            ∨ (k ∈ ["email", "firstName", "lastName", "max", "username", "client_id",
                    "redirect_uri", "group"]
                ∧ url.Values.Get req.Query k ≠ "")))
      ∧ (∀ k, k ∈ ["email", "firstName", "lastName", "max", "username", "client_id",
                    "redirect_uri", "group"] →
          url.Values.Get req.Query k ≠ "" →
          request.get? k = some (url.Values.Get req.Query k))
      ∧ (∀ k, k ∈ ["email", "firstName", "lastName", "max", "username", "client_id",
                    "redirect_uri", "group"] →
          url.Values.Get req.Query k = "" → request.get? k = none) := by
  obtain ⟨request, hdec, hlookup⟩ := decodeManagementRequest_lookup ctx req
  refine ⟨request, hdec, ?_, ?_, ?_⟩
  · intro k
    rw [hlookup]
    by_cases hq : k ∈ queryKeys ∧ url.Values.Get req.Query k ≠ ""
    · rw [if_pos hq]
      simp only [Option.isSome_some, true_iff]
      exact Or.inr hq
    · rw [if_neg hq]
      have hq' : ¬ (k ∈ ["email", "firstName", "lastName", "max", "username", "client_id",
          "redirect_uri", "group"] ∧ url.Values.Get req.Query k ≠ "") := hq
      by_cases h1 : k = "body"
      · simp [h1]
      · by_cases h2 : k = "host"
        · simp [h2]
        · by_cases h3 : k = "scheme"
          · simp [h3]
          · by_cases h4 : k ∈ pathKeys
            · have h4' := h4
              simp only [pathKeys, List.mem_cons, List.mem_singleton, List.not_mem_nil,
                or_false] at h4'
              simp only [h1, h2, h3, h4, if_false, if_true, Option.isSome_some, true_iff]
              left
              simp only [List.mem_cons, List.mem_singleton, List.not_mem_nil, or_false]
              tauto
            · have h4' := h4
              simp only [pathKeys, List.mem_cons, List.mem_singleton, List.not_mem_nil,
                or_false] at h4'
              simp only [h1, h2, h3, h4, if_false, Option.isSome_none, Bool.false_eq_true,
                false_iff]
              rintro (hfix | hquery)
              · simp only [List.mem_cons, List.mem_singleton, List.not_mem_nil, or_false]
                  at hfix
                tauto
              · exact hq' hquery
  · intro k hk hne
    rw [hlookup, if_pos ⟨hk, hne⟩]
  · intro k hk hempty
    rw [hlookup]
    have hq : ¬ (k ∈ queryKeys ∧ url.Values.Get req.Query k ≠ "") := fun h => h.2 hempty
    rw [if_neg hq]
    simp only [queryKeys, List.mem_cons, List.mem_singleton, List.not_mem_nil, or_false] at hk
    rcases hk with rfl | rfl | rfl | rfl | rfl | rfl | rfl | rfl <;> simp [pathKeys]

/-- Witness of C24: the theorem applied at a concrete input. -/
theorem decodeManagementRequest_keys_witness :
    ∃ request, decodeManagementRequest [] sampleRequest = .ok request
      ∧ ((request.get? "unused").isSome = true ↔
          ("unused" ∈ ["realm", "userID", "clientID", "roleID", "credentialID", "scheme", "host",
              "body"]
            ∨ ("unused" ∈ ["email", "firstName", "lastName", "max", "username", "client_id",
                    "redirect_uri", "group"]
                ∧ url.Values.Get sampleRequest.Query "unused" ≠ "")))
      ∧ request.get? "email" = some "toto@toto.com"
      ∧ request.get? "max" = none := by
  obtain ⟨request, hdec, hkeys, hvalue, hnone⟩ := decodeManagementRequest_keys [] sampleRequest
  exact ⟨request, hdec, hkeys "unused", hvalue "email" (by decide) (by decide),
    hnone "max" (by decide) (by decide)⟩

/-- C29: for any two management requests that differ only in their URL query
string, decodeManagementRequest yields identical values for realm, userID,
clientID, roleID, credentialID, scheme, host and body, namely the path
variables, the scheme, the Host and the body of the request: the whitelisted
query names are disjoint from those keys. -/
theorem decodeManagementRequest_query_independent (ctx : Context) (req : http.Request)
    (query1 query2 : url.Values) :
    ∃ request1 request2,
      decodeManagementRequest ctx { req with Query := query1 } = .ok request1
      ∧ decodeManagementRequest ctx { req with Query := query2 } = .ok request2
      ∧ (∀ k, k ∈ ["realm", "userID", "clientID", "roleID", "credentialID", "scheme", "host",
            "body"] →
          request1.get? k = request2.get? k ∧ k ∉ queryKeys)
      ∧ (∀ k, k ∈ ["realm", "userID", "clientID", "roleID", "credentialID"] →
          request1.get? k = some (req.Vars.get k))
      ∧ request1.get? "scheme" = some (getScheme req)
      ∧ request1.get? "host" = some req.Host
      ∧ request1.get? "body" = some req.Body := by
  obtain ⟨request1, hdec1, hlookup1⟩ :=
    decodeManagementRequest_lookup ctx { req with Query := query1 }
  obtain ⟨request2, hdec2, hlookup2⟩ :=
    decodeManagementRequest_lookup ctx { req with Query := query2 }
  have hscheme : ∀ query : url.Values, getScheme { req with Query := query } = getScheme req :=
    fun _ => rfl
  refine ⟨request1, request2, hdec1, hdec2, ?_, ?_, ?_, ?_, ?_⟩
  · intro k hk
    simp only [List.mem_cons, List.mem_singleton, List.not_mem_nil, or_false] at hk
    rw [hlookup1, hlookup2]
    rcases hk with rfl | rfl | rfl | rfl | rfl | rfl | rfl | rfl <;>
      simp [queryKeys, pathKeys, hscheme]
  · intro k hk
    simp only [List.mem_cons, List.mem_singleton, List.not_mem_nil, or_false] at hk
    rw [hlookup1]
    rcases hk with rfl | rfl | rfl | rfl | rfl <;> simp [queryKeys, pathKeys]
  · rw [hlookup1]
    simp [queryKeys, hscheme]
  · rw [hlookup1]
    simp [queryKeys]
  · rw [hlookup1]
    simp [queryKeys]

/-- Witness of C29: the theorem applied at a concrete input. -/
theorem decodeManagementRequest_query_independent_witness :
    ∃ request1 request2,
      decodeManagementRequest [] { sampleRequest with
          Query := [("realm", "other"), ("host", "evil.com"), ("body", "x"), ("scheme", "ftp")] }
        = .ok request1
      ∧ decodeManagementRequest [] { sampleRequest with Query := [] } = .ok request2
      ∧ (request1.get? "realm" = request2.get? "realm" ∧ "realm" ∉ queryKeys)
      ∧ request1.get? "realm" = some "master"
      ∧ request1.get? "scheme" = some "http"
      ∧ request1.get? "host" = some "toto.com"
      ∧ request1.get? "body" = some "" := by
  obtain ⟨request1, request2, h1, h2, hsame, hpath, hscheme, hhost, hbody⟩ :=
    decodeManagementRequest_query_independent [] sampleRequest
      [("realm", "other"), ("host", "evil.com"), ("body", "x"), ("scheme", "ftp")] []
  exact ⟨request1, request2, h1, h2, hsame "realm" (by decide), hpath "realm" (by decide),
    hscheme, hhost, hbody⟩

/-! ### Management reply encoding -/

/-- C21: for every reply of type LocationHeader, on a fresh response,
encodeManagementReply sets the Location response header to the URL of the
reply, writes status 201 Created, writes no body and returns nil. -/
theorem encodeManagementReply_LocationHeader (ctx : Context) (w : http.ResponseWriter)
    (URL : String) (hstatus : w.status = none) (hbody : w.body = []) :
    http.Header.Get (encodeManagementReply ctx w (.LocationHeader URL)).1.header "Location" = URL
    ∧ (encodeManagementReply ctx w (.LocationHeader URL)).1.status = some http.StatusCreated
    ∧ (encodeManagementReply ctx w (.LocationHeader URL)).1.body = []
    ∧ (encodeManagementReply ctx w (.LocationHeader URL)).2 = none := by
  simp [encodeManagementReply, http.ResponseWriter.WriteHeader, checkWriteHeaderCode_constants,
      http.ResponseWriter.SetHeader,
    http.Header.Set, http.Header.Get, canonicalKeys, List.lookup, hstatus, hbody]

/-- Witness of C21: the theorem applied at a concrete input. -/
theorem encodeManagementReply_LocationHeader_witness :
    http.Header.Get
        (encodeManagementReply [] {}
          (.LocationHeader "https://toto.com/management/realms/master/users/12456")).1.header
        "Location"
      = "https://toto.com/management/realms/master/users/12456"
    ∧ (encodeManagementReply [] {}
        (.LocationHeader "https://toto.com/management/realms/master/users/12456")).1.status
      = some 201
    ∧ (encodeManagementReply [] {}
        (.LocationHeader "https://toto.com/management/realms/master/users/12456")).1.body = []
    ∧ (encodeManagementReply [] {}
        (.LocationHeader "https://toto.com/management/realms/master/users/12456")).2 = none :=
  encodeManagementReply_LocationHeader [] {}
    "https://toto.com/management/realms/master/users/12456" rfl rfl

/-- C22: for every reply that is not a LocationHeader, on a fresh response,
encodeManagementReply writes status 200: with no body and no Content-Type
when the reply is nil, and otherwise with Content-Type
"application/json; charset=utf-8" and the output of
`json.MarshalIndent(reply, "", " ")` as body (nothing when the marshalling
fails); it returns nil in every case. -/
theorem encodeManagementReply_other (ctx : Context) (w : http.ResponseWriter)
    (hstatus : w.status = none) (hbody : w.body = [])
    (hheader : List.lookup "Content-Type" w.header = none) :
    ((encodeManagementReply ctx w .nil).1.status = some http.StatusOK
      ∧ (encodeManagementReply ctx w .nil).1.body = []
      ∧ List.lookup "Content-Type" (encodeManagementReply ctx w .nil).1.header = none
      ∧ (encodeManagementReply ctx w .nil).2 = none)
    ∧ (∀ json : String,
        (encodeManagementReply ctx w (.value (.ok json))).1.status = some http.StatusOK
        ∧ (encodeManagementReply ctx w (.value (.ok json))).1.body = [.text json]
        ∧ http.Header.Get (encodeManagementReply ctx w (.value (.ok json))).1.header
            "Content-Type" = "application/json; charset=utf-8"
        ∧ (encodeManagementReply ctx w (.value (.ok json))).2 = none)
    ∧ (∀ err : GoError,
        (encodeManagementReply ctx w (.value (.error err))).1.status = some http.StatusOK
        ∧ (encodeManagementReply ctx w (.value (.error err))).1.body = []
        ∧ http.Header.Get (encodeManagementReply ctx w (.value (.error err))).1.header
            "Content-Type" = "application/json; charset=utf-8"
        ∧ (encodeManagementReply ctx w (.value (.error err))).2 = none) := by
  refine ⟨?_, ?_, ?_⟩
  · simp [encodeManagementReply, http.ResponseWriter.WriteHeader, checkWriteHeaderCode_constants,
      hstatus, hbody, hheader]
  · intro json
    simp [encodeManagementReply, http.ResponseWriter.WriteHeader, checkWriteHeaderCode_constants,
        http.ResponseWriter.SetHeader,
      http.ResponseWriter.Write, http.Header.Set, http.Header.Get, canonicalKeys, List.lookup,
      hstatus, hbody]
  · intro err
    simp [encodeManagementReply, http.ResponseWriter.WriteHeader, checkWriteHeaderCode_constants,
        http.ResponseWriter.SetHeader,
      http.Header.Set, http.Header.Get, canonicalKeys, List.lookup, hstatus, hbody]

/-- Witness of C22: the theorem applied at a concrete input. -/
theorem encodeManagementReply_other_witness :
    ((encodeManagementReply [] {} .nil).1.status = some http.StatusOK
      ∧ (encodeManagementReply [] {} .nil).1.body = []
      ∧ List.lookup "Content-Type" (encodeManagementReply [] {} .nil).1.header = none
      ∧ (encodeManagementReply [] {} .nil).2 = none)
    ∧ ((encodeManagementReply [] {} (.value (.ok "\x7b\n \"id\": \"1234-456\"\n\x7d"))).1.status
        = some http.StatusOK
      ∧ (encodeManagementReply [] {} (.value (.ok "\x7b\n \"id\": \"1234-456\"\n\x7d"))).1.body
        = [.text "\x7b\n \"id\": \"1234-456\"\n\x7d"]
      ∧ http.Header.Get
          (encodeManagementReply [] {} (.value (.ok "\x7b\n \"id\": \"1234-456\"\n\x7d"))).1.header
          "Content-Type" = "application/json; charset=utf-8"
      ∧ (encodeManagementReply [] {} (.value (.ok "\x7b\n \"id\": \"1234-456\"\n\x7d"))).2 = none) :=
  ⟨(encodeManagementReply_other [] {} rfl rfl rfl).1,
   (encodeManagementReply_other [] {} rfl rfl rfl).2.1 "\x7b\n \"id\": \"1234-456\"\n\x7d"⟩

/-! ### Ingestion error handler and the order of the checks -/

/-- C25: on a fresh response, the ingestion errorHandler writes status 400
exactly when the root cause of the error is an ErrInvalidArgument and status
500 for every other error; in both cases it sets Content-Type
"application/json; charset=utf-8" and writes the JSON encoding of
{"error": err.Error()} as body. -/
theorem errorHandler_response (ctx : Context) (err : GoError) (w : http.ResponseWriter)
    (hstatus : w.status = none) (hbody : w.body = []) :
    ((errorHandler ctx err w).1.status = some http.StatusBadRequest
        ↔ err.Cause.isErrInvalidArgument = true)
    ∧ (err.Cause.isErrInvalidArgument = false →
        (errorHandler ctx err w).1.status = some http.StatusInternalServerError)
    ∧ http.Header.Get (errorHandler ctx err w).1.header "Content-Type"
        = "application/json; charset=utf-8"
    ∧ (errorHandler ctx err w).1.body = [.json (.obj [("error", err.Error)])] := by
  refine ⟨?_, ?_, ?_, ?_⟩
  · cases h : err.Cause <;>
      simp [errorHandler, h, GoError.isErrInvalidArgument, http.ResponseWriter.Write,
        http.ResponseWriter.WriteHeader, http.checkWriteHeaderCode, http.ResponseWriter.SetHeader,
        hstatus, http.StatusBadRequest, http.StatusInternalServerError]
  · intro hcause
    cases h : err.Cause <;>
      simp_all [errorHandler, GoError.isErrInvalidArgument, http.ResponseWriter.Write,
        http.ResponseWriter.WriteHeader, checkWriteHeaderCode_constants,
        http.ResponseWriter.SetHeader]
  · cases h : err.Cause <;>
      simp [errorHandler, h, http.ResponseWriter.Write, http.ResponseWriter.WriteHeader,
          checkWriteHeaderCode_constants,
        http.ResponseWriter.SetHeader, http.Header.Set, http.Header.Get, canonicalKeys,
        List.lookup, hstatus]
  · cases h : err.Cause <;>
      simp [errorHandler, h, http.ResponseWriter.Write, http.ResponseWriter.WriteHeader,
          checkWriteHeaderCode_constants,
        http.ResponseWriter.SetHeader, hstatus, hbody]

/-- Witness of C25: the theorem applied at a concrete input. -/
theorem errorHandler_response_witness :
    (errorHandler [] (.wrap (.ErrInvalidArgument "type") "invalid") {}).1.status
        = some http.StatusBadRequest
    ∧ (errorHandler [] (.wrap (.jsonError "unexpected EOF") "invalid") {}).1.status
        = some http.StatusInternalServerError
    ∧ http.Header.Get (errorHandler [] (.wrap (.ErrInvalidArgument "type") "invalid") {}).1.header
        "Content-Type" = "application/json; charset=utf-8"
    ∧ (errorHandler [] (.wrap (.ErrInvalidArgument "type") "invalid") {}).1.body
        = [.json (.obj [("error", "invalid: invalidArgument.type")])] :=
  ⟨(errorHandler_response [] (.wrap (.ErrInvalidArgument "type") "invalid") {} rfl rfl).1.mpr rfl,
   (errorHandler_response [] (.wrap (.jsonError "unexpected EOF") "invalid") {} rfl rfl).2.1 rfl,
   (errorHandler_response [] (.wrap (.ErrInvalidArgument "type") "invalid") {} rfl rfl).2.2.1,
   (errorHandler_response [] (.wrap (.ErrInvalidArgument "type") "invalid") {} rfl rfl).2.2.2⟩

/-- C28: decodeHTTPRequest succeeds if and only if the body parses as a JSON
envelope, Obj is valid standard base64, Type is "Event" or "AdminEvent", and
the decoded payload has at least 4 bytes; the checks are applied in that
order and the first failing check alone determines the returned error: a
body that does not parse gives the JSON error; an undecodable Obj gives the
base64 error whatever the Type; a bad Type gives the type error whatever the
length of the payload; a short payload gives the length error. -/
theorem decodeHTTPRequest_check_order (internal : Messages) (ctx : Context) (r : HTTPRequest) :
    ((∃ request, decodeHTTPRequest internal ctx r = .ok request) ↔
        ∃ kr b, r.Body = .ok kr ∧ base64.DecodeString kr.Object = .ok b
          ∧ (kr.«Type» = "Event" ∨ kr.«Type» = "AdminEvent") ∧ 4 ≤ b.length)
    ∧ (∀ err, r.Body = .error err →
        decodeHTTPRequest internal ctx r = .error (.wrap err internal.MsgErrInvalidJSONRequest))
    ∧ (∀ kr err, r.Body = .ok kr → base64.DecodeString kr.Object = .error err →
        decodeHTTPRequest internal ctx r
          = .error (.wrap err internal.MsgErrInvalidBase64Object))
    ∧ (∀ kr b, r.Body = .ok kr → base64.DecodeString kr.Object = .ok b →
        kr.«Type» ≠ "Event" → kr.«Type» ≠ "AdminEvent" →
        decodeHTTPRequest internal ctx r
          = .error (.wrap (.ErrInvalidArgument "type") internal.MsgErrInvalidBase64Object))
    ∧ (∀ kr b, r.Body = .ok kr → base64.DecodeString kr.Object = .ok b →
        (kr.«Type» = "Event" ∨ kr.«Type» = "AdminEvent") → b.length < 4 →
        decodeHTTPRequest internal ctx r
          = .error (.wrap (.ErrInvalidArgument "obj")
              (internal.MsgErrInvalidLength ++ "." ++ internal.Flatbuffer))) := by
  have hjson : ∀ err, r.Body = .error err →
      decodeHTTPRequest internal ctx r
        = .error (.wrap err internal.MsgErrInvalidJSONRequest) := by
    intro err h
    simp [decodeHTTPRequest, h]
  have hbase64 : ∀ kr err, r.Body = .ok kr → base64.DecodeString kr.Object = .error err →
      decodeHTTPRequest internal ctx r
        = .error (.wrap err internal.MsgErrInvalidBase64Object) := by
    intro kr err h1 h2
    simp [decodeHTTPRequest, h1, h2]
  have htype : ∀ kr b, r.Body = .ok kr → base64.DecodeString kr.Object = .ok b →
      kr.«Type» ≠ "Event" → kr.«Type» ≠ "AdminEvent" →
      decodeHTTPRequest internal ctx r
        = .error (.wrap (.ErrInvalidArgument "type") internal.MsgErrInvalidBase64Object) := by
    intro kr b h1 h2 hE hA
    simp [decodeHTTPRequest, h1, h2, hE, hA]
  refine ⟨?_, hjson, hbase64, htype, ?_⟩
  · constructor
    · rintro ⟨request, hok⟩
      cases hbody : r.Body with
      | error err => rw [hjson err hbody] at hok; cases hok
      | ok kr =>
        cases hobj : base64.DecodeString kr.Object with
        | error err => rw [hbase64 kr err hbody hobj] at hok; cases hok
        | ok b =>
          by_cases hty : kr.«Type» = "Event" ∨ kr.«Type» = "AdminEvent"
          · by_cases hlen : 4 ≤ b.length
            · exact ⟨kr, b, rfl, hobj, hty, hlen⟩
            · rw [decodeHTTPRequest_of_short internal ctx r kr b hbody hobj hty (by omega)] at hok
              cases hok
          · have hE : kr.«Type» ≠ "Event" := fun h => hty (Or.inl h)
            have hA : kr.«Type» ≠ "AdminEvent" := fun h => hty (Or.inr h)
            rw [htype kr b hbody hobj hE hA] at hok
            cases hok
    · rintro ⟨kr, b, hbody, hobj, hty, hlen⟩
      exact ⟨_, decodeHTTPRequest_of_long internal ctx r kr b hbody hobj hty hlen⟩
  · intro kr b hbody hobj hty hlen
    exact decodeHTTPRequest_of_short internal ctx r kr b hbody hobj hty hlen

/-- Witness of C28: the theorem applied at a concrete input. -/
theorem decodeHTTPRequest_check_order_witness :
    decodeHTTPRequest sampleMessages [] ⟨[], .ok ⟨"Foo", "!!!!"⟩⟩
        = .error (.wrap (.CorruptInputError 0) sampleMessages.MsgErrInvalidBase64Object)
    ∧ decodeHTTPRequest sampleMessages [] ⟨[], .ok ⟨"Foo", "YWI="⟩⟩
        = .error (.wrap (.ErrInvalidArgument "type") sampleMessages.MsgErrInvalidBase64Object)
    ∧ ∃ request, decodeHTTPRequest sampleMessages [] ⟨[], .ok ⟨"Event", "YWJjZA=="⟩⟩
        = .ok request :=
  ⟨(decodeHTTPRequest_check_order sampleMessages [] ⟨[], .ok ⟨"Foo", "!!!!"⟩⟩).2.2.1
      ⟨"Foo", "!!!!"⟩ (.CorruptInputError 0) rfl (by decide),
   (decodeHTTPRequest_check_order sampleMessages [] ⟨[], .ok ⟨"Foo", "YWI="⟩⟩).2.2.2.1
      ⟨"Foo", "YWI="⟩ [97, 98] rfl (by decide) (by decide) (by decide),
   (decodeHTTPRequest_check_order sampleMessages [] ⟨[], .ok ⟨"Event", "YWJjZA=="⟩⟩).1.mpr
      ⟨⟨"Event", "YWJjZA=="⟩, [97, 98, 99, 100], rfl, by decide, Or.inl rfl, by decide⟩⟩

/-! ### Wrapper order in `main` -/

/-- C26, as stated, fails for the mux component: its outermost wrapper is the
tracking middleware, which sits outside tracing. -/
theorem muxComponent_tracking_outside_tracing_counterexample :
    cmd.muxComponent.wrappers = [.Tracking, .Tracing, .Logging, .Instrumenting]
    ∧ cmd.muxComponent.wrappers.head? ≠ some .Tracing := by
  decide

/-- C26 (amended): for the console module, the statistic module, the events DB
module (also as decorated by configureEventsDbModule), the admin component
and the event component, the wrapper chain from outermost to innermost is
tracing, then logging, then instrumenting, then the base implementation, and
no other wrapper sits outside tracing; for the mux component the chain is
tracking, then tracing, then logging, then instrumenting, then the base
implementation. -/
theorem event_units_wrapper_order (baseEventsDBModule : cmd.Decorated) :
    cmd.consoleModule = ⟨"event.NewConsoleModule", [.Tracing, .Logging, .Instrumenting]⟩
    ∧ cmd.statisticModule = ⟨"event.NewStatisticModule", [.Tracing, .Logging, .Instrumenting]⟩
    ∧ cmd.eventsDBModule = ⟨"database.NewEventsDBModule", [.Tracing, .Logging, .Instrumenting]⟩
    ∧ cmd.eventAdminComponent
        = ⟨"event.NewAdminComponent", [.Tracing, .Logging, .Instrumenting]⟩
    ∧ cmd.eventComponent = ⟨"event.NewComponent", [.Tracing, .Logging, .Instrumenting]⟩
    ∧ cmd.muxComponent
        = ⟨"event.NewMuxComponent", [.Tracking, .Tracing, .Logging, .Instrumenting]⟩
    ∧ cmd.configureEventsDbModule baseEventsDBModule
        = ⟨baseEventsDBModule.base,
            [.Tracing, .Logging, .Instrumenting] ++ baseEventsDBModule.wrappers⟩ :=
  ⟨rfl, rfl, rfl, rfl, rfl, rfl, rfl⟩

/-! ### Wire form of an audit event -/

theorem lookup_append_of_none {β : Type} (k : String) (l1 l2 : List (String × β))
    (h : List.lookup k l1 = none) : List.lookup k (l1 ++ l2) = List.lookup k l2 := by
  rw [List.lookup_append, h]
  rfl

theorem lookup_omitemptyString (k name s : String) (h : (k == name) = false) :
    List.lookup k (json.omitemptyString name s) = none := by
  unfold json.omitemptyString
  split
  · rfl
  · simp [List.lookup, h]

theorem lookup_omitemptyInt_ne (k name : String) (n : Int) (h : (k == name) = false) :
    List.lookup k (json.omitemptyInt name n) = none := by
  unfold json.omitemptyInt
  split
  · rfl
  · simp [List.lookup, h]

theorem lookup_omitemptyInt_self (name : String) (n : Int) :
    List.lookup name (json.omitemptyInt name n)
      = if n = 0 then none else some (.number n) := by
  unfold json.omitemptyInt
  split
  · rfl
  · simp [List.lookup]

theorem lookup_append_of_some {β : Type} (k : String) (l1 l2 : List (String × β)) (v : β)
    (h : List.lookup k l1 = some v) : List.lookup k (l1 ++ l2) = some v := by
  rw [List.lookup_append, h]
  rfl

/-- The string members of an audit event never bind "auditId" or "auditTime". -/
theorem AuditRepresentation_string_members (a : events_api.AuditRepresentation)
    (k : String) (hk : k = "auditId" ∨ k = "auditTime") :
    List.lookup k (json.omitemptyString "origin" a.Origin
      ++ json.omitemptyString "realmName" a.RealmName
      ++ json.omitemptyString "agentUserId" a.AgentUserID
      ++ json.omitemptyString "agentUsername" a.AgentUsername
      ++ json.omitemptyString "agentRealmName" a.AgentRealmName
      ++ json.omitemptyString "userId" a.UserID
      ++ json.omitemptyString "username" a.Username
      ++ json.omitemptyString "ctEventType" a.CtEventType
      ++ json.omitemptyString "kcEventType" a.KcEventType
      ++ json.omitemptyString "kcOperationType" a.KcOperationType
      ++ json.omitemptyString "clientId" a.ClientID
      ++ json.omitemptyString "additionalInfo" a.AdditionalInfo) = none := by
  rcases hk with rfl | rfl <;>
    simp [List.lookup_append, lookup_omitemptyString]

/-- C27, as stated, fails: the wire form of an audit event whose id and time
are 0 has neither an auditId nor an auditTime member, both fields being tagged
`omitempty`. -/
theorem AuditRepresentation_zero_id_counterexample :
    events_api.sampleZeroAudit.Marshal
        = .object [("origin", .string "back-office"), ("realmName", .string "master")]
    ∧ events_api.sampleZeroAudit.Marshal.member "auditId" = none
    ∧ events_api.sampleZeroAudit.Marshal.member "auditTime" = none :=
  ⟨rfl, rfl, rfl⟩

/-- C27 (amended): in the JSON wire representation of every AuditRepresentation
value, the auditId member is present, with the id as value, exactly when the
id is not 0, and the auditTime member is present, with the time as value,
exactly when the time is not 0. -/
theorem AuditRepresentation_id_time_members (a : events_api.AuditRepresentation) :
    (a.AuditID ≠ 0 → a.Marshal.member "auditId" = some (.number a.AuditID))
    ∧ (a.AuditID = 0 → a.Marshal.member "auditId" = none)
    ∧ (a.AuditTime ≠ 0 → a.Marshal.member "auditTime" = some (.number a.AuditTime))
    ∧ (a.AuditTime = 0 → a.Marshal.member "auditTime" = none) := by
  have hid := AuditRepresentation_string_members a "auditId" (Or.inl rfl)
  have htime := AuditRepresentation_string_members a "auditTime" (Or.inr rfl)
  have hshape : a.Marshal = .object (json.omitemptyInt "auditId" a.AuditID
      ++ (json.omitemptyInt "auditTime" a.AuditTime
      ++ (json.omitemptyString "origin" a.Origin
        ++ json.omitemptyString "realmName" a.RealmName
        ++ json.omitemptyString "agentUserId" a.AgentUserID
        ++ json.omitemptyString "agentUsername" a.AgentUsername
        ++ json.omitemptyString "agentRealmName" a.AgentRealmName
        ++ json.omitemptyString "userId" a.UserID
        ++ json.omitemptyString "username" a.Username
        ++ json.omitemptyString "ctEventType" a.CtEventType
        ++ json.omitemptyString "kcEventType" a.KcEventType
        ++ json.omitemptyString "kcOperationType" a.KcOperationType
        ++ json.omitemptyString "clientId" a.ClientID
        ++ json.omitemptyString "additionalInfo" a.AdditionalInfo))) := by
    simp only [events_api.AuditRepresentation.Marshal, List.append_assoc]
  rw [hshape]
  simp only [json.Value.member]
  refine ⟨?_, ?_, ?_, ?_⟩
  · intro h
    apply lookup_append_of_some
    rw [lookup_omitemptyInt_self, if_neg h]
  · intro h
    rw [lookup_append_of_none _ _ _ (by rw [lookup_omitemptyInt_self, if_pos h]),
      lookup_append_of_none _ _ _ (lookup_omitemptyInt_ne _ _ _ (by decide)), hid]
  · intro h
    rw [lookup_append_of_none _ _ _ (lookup_omitemptyInt_ne _ _ _ (by decide))]
    apply lookup_append_of_some
    rw [lookup_omitemptyInt_self, if_neg h]
  · intro h
    rw [lookup_append_of_none _ _ _ (lookup_omitemptyInt_ne _ _ _ (by decide)),
      lookup_append_of_none _ _ _ (by rw [lookup_omitemptyInt_self, if_pos h]), htime]

/-- Witness of C27 (amended): the theorem applied at a concrete input. -/
theorem AuditRepresentation_id_time_members_witness :
    ({ events_api.sampleZeroAudit with AuditID := 456 } :
        events_api.AuditRepresentation).Marshal.member "auditId" = some (.number 456)
    ∧ ({ events_api.sampleZeroAudit with AuditID := 456 } :
        events_api.AuditRepresentation).Marshal.member "auditTime" = none :=
  ⟨(AuditRepresentation_id_time_members { events_api.sampleZeroAudit with AuditID := 456 }).1
      (by decide),
   (AuditRepresentation_id_time_members { events_api.sampleZeroAudit with AuditID := 456 }).2.2.2
      rfl⟩

/-! ### Logging of the configuration -/

theorem bytesLE_total : ∀ a b : List Nat, cmd.bytesLE a b = true ∨ cmd.bytesLE b a = true := by
  intro a
  induction a with
  | nil => intro b; left; rfl
  | cons x xs ih =>
    intro b
    cases b with
    | nil => right; rfl
    | cons y ys =>
      simp only [cmd.bytesLE, Bool.or_eq_true, Bool.and_eq_true, decide_eq_true_eq, beq_iff_eq]
      rcases Nat.lt_trichotomy x y with h | h | h
      · exact Or.inl (Or.inl h)
      · rcases ih ys with h' | h'
        · exact Or.inl (Or.inr ⟨h, h'⟩)
        · exact Or.inr (Or.inr ⟨h.symm, h'⟩)
      · exact Or.inr (Or.inl h)

theorem bytesLE_trans : ∀ a b c : List Nat,
    cmd.bytesLE a b = true → cmd.bytesLE b c = true → cmd.bytesLE a c = true := by
  intro a
  induction a with
  | nil => intro b c _ _; rfl
  | cons x xs ih =>
    intro b c hab hbc
    cases b with
    | nil => simp [cmd.bytesLE] at hab
    | cons y ys =>
      cases c with
      | nil => simp [cmd.bytesLE] at hbc
      | cons z zs =>
        simp only [cmd.bytesLE, Bool.or_eq_true, Bool.and_eq_true, decide_eq_true_eq,
          beq_iff_eq] at hab hbc ⊢
        rcases hab with h1 | ⟨h1, h1'⟩
        · rcases hbc with h2 | ⟨h2, _⟩
          · exact Or.inl (by omega)
          · exact Or.inl (by omega)
        · rcases hbc with h2 | ⟨h2, h2'⟩
          · exact Or.inl (by omega)
          · exact Or.inr ⟨by omega, ih ys zs h1' h2'⟩

theorem stringLE_isTotal : IsTotal String cmd.stringLE :=
  ⟨fun a b => bytesLE_total (base64.bytesOf a) (base64.bytesOf b)⟩

theorem stringLE_isTrans : IsTrans String cmd.stringLE :=
  ⟨fun a b c => bytesLE_trans (base64.bytesOf a) (base64.bytesOf b) (base64.bytesOf c)⟩

/-- C30: when config logs the loaded configuration, whose keys `v.AllKeys()`
are pairwise distinct, every key that is registered as censored or whose name
contains "password" is logged with the fixed mask and every other key with
its value; the keys are logged in ascending order, each exactly once. -/
theorem logConfig_masks_and_sorts (allKeys : List String) (get : String → String)
    (hkeys : allKeys.Nodup) :
    cmd.logConfig allKeys get
        = (cmd.sortStrings allKeys).map (fun k =>
            (⟨"info", [.text k,
              .text (if k ∈ ["influx-password", "sentry-dsn", "event-basic-auth-token"]
                      ∨ cmd.Contains k "password" = true then "*************" else get k)]⟩
              : LogEntry))
    ∧ List.Sorted cmd.stringLE (cmd.sortStrings allKeys)
    ∧ (cmd.sortStrings allKeys).Perm allKeys
    ∧ (cmd.sortStrings allKeys).Nodup
    ∧ (cmd.logConfig allKeys get).length = allKeys.length := by
  have hperm : (cmd.sortStrings allKeys).Perm allKeys := List.perm_insertionSort _ _
  haveI := stringLE_isTotal
  haveI := stringLE_isTrans
  refine ⟨?_, List.sorted_insertionSort _ _, hperm, hperm.nodup_iff.mpr hkeys, ?_⟩
  · unfold cmd.logConfig
    apply List.map_congr_left
    intro k _
    by_cases h1 : k ∈ cmd.censoredParameters
    · have h1' : k ∈ ["influx-password", "sentry-dsn", "event-basic-auth-token"] := h1
      rw [if_pos h1, if_pos (Or.inl h1')]
    · have h1' : k ∉ ["influx-password", "sentry-dsn", "event-basic-auth-token"] := h1
      rw [if_neg h1]
      by_cases h2 : cmd.Contains k "password" = true
      · rw [if_pos h2, if_pos (Or.inr h2)]
      · have h3 : ¬ (k ∈ ["influx-password", "sentry-dsn", "event-basic-auth-token"]
            ∨ cmd.Contains k "password" = true) := by
          rintro (h | h)
          · exact h1' h
          · exact h2 h
        rw [if_neg h2, if_neg h3]
  · unfold cmd.logConfig
    rw [List.length_map]
    exact hperm.length_eq

/-- Witness of C30: the theorem applied at a concrete input. -/
theorem logConfig_masks_and_sorts_witness :
    cmd.logConfig ["sentry-dsn", "influx", "db-audit-rw-password", "influx-password"]
        (fun k => "value of " ++ k)
      = (cmd.sortStrings ["sentry-dsn", "influx", "db-audit-rw-password", "influx-password"]).map
          (fun k =>
            (⟨"info", [.text k,
              .text (if k ∈ ["influx-password", "sentry-dsn", "event-basic-auth-token"]
                      ∨ cmd.Contains k "password" = true then "*************"
                     else "value of " ++ k)]⟩ : LogEntry))
    ∧ cmd.logConfig ["sentry-dsn", "influx", "db-audit-rw-password", "influx-password"]
        (fun k => "value of " ++ k)
      = [⟨"info", [.text "db-audit-rw-password", .text "*************"]⟩,
         ⟨"info", [.text "influx", .text "value of influx"]⟩,
         ⟨"info", [.text "influx-password", .text "*************"]⟩,
         ⟨"info", [.text "sentry-dsn", .text "*************"]⟩] :=
  ⟨(logConfig_masks_and_sorts ["sentry-dsn", "influx", "db-audit-rw-password", "influx-password"]
      (fun k => "value of " ++ k) (by decide)).1, by decide⟩

end Theorems

end KeycloakBridge

